import Mathlib

/-! # Synoptic-AI dashboard: run controller, approval gate, snapshot recorder, replay engine

A shallow embedding of `src/ui_revamp/App.jsx` (the component `App`) and of the
controls it mounts (`components/TimeTravelControls.jsx`,
`components/ApprovalRequest.jsx`), and of the saved-briefing functions of
`src/daily_briefing_generator/web_interface/frontend/static/js/briefing.js`.

Modelling decisions, each stated where it is used:

* the React state cells of `App` are the fields of `State`; a handler is a function
  `State → State` that applies the handler's `set…` calls in program order;
* the `await delay(ms)` pauses inside a handler are elided: a handler is taken from its
  first statement to its last as one transition;
* `generateTimestamp()` reads the wall clock; a handler receives a clock `clk : Nat → String`
  whose value at `k` is the text returned by the handler's `k`-th call;
* `Math.random()` is replaced by the two whole numbers the expressions built on it are
  floored to (`Draws`);
* in `App.jsx` JavaScript strings are Lean strings, processed as lists of characters;
  in `briefing.js`, where lengths matter, they are lists of UTF-16 code units.
-/

namespace Synoptic

/-! ## Characters and strings -/

/-- White space as the regular-expression class `\s` and `String.prototype.trim` see it:
ECMAScript `WhiteSpace` and `LineTerminator` code points. -/
def isJsSpace (c : Char) : Bool :=
  c.val = 0x09 || c.val = 0x0A || c.val = 0x0B || c.val = 0x0C || c.val = 0x0D ||
  c.val = 0x20 || c.val = 0xA0 || c.val = 0x1680 ||
  (0x2000 ≤ c.val && c.val ≤ 0x200A) ||
  c.val = 0x2028 || c.val = 0x2029 || c.val = 0x202F || c.val = 0x205F ||
  c.val = 0x3000 || c.val = 0xFEFF

/-- The letters `a-z` and `A-Z`. -/
def isAsciiLetter (c : Char) : Bool :=
  c.isLower || c.isUpper

/-- Lower-casing of one character as `String.prototype.toLowerCase` does it, as far as
ASCII output is concerned: `A-Z` go to `a-z`; U+0130 goes to `i` followed by U+0307 and
U+212A (Kelvin sign) goes to `k`, the only two code points outside ASCII whose lower-case
form contains an ASCII character. Every other code point outside ASCII is kept as it is
(its lower-case form is again outside ASCII). -/
def lowerChar (c : Char) : List Char :=
  if c.isUpper then [c.toLower]
  else if c.val = 0x130 then ['i', Char.ofNat 0x307]
  else if c.val = 0x212A then ['k']
  else [c]

/-- Model of `toLowerCase()` on a list of characters. -/
def toLowerCase (s : List Char) : List Char :=
  s.flatMap lowerChar

/-- Model of `haystack.includes(needle)`: some suffix of the haystack starts with the needle. -/
def includes : List Char → List Char → Bool
  | [], needle => needle.isPrefixOf []
  | c :: cs, needle => needle.isPrefixOf (c :: cs) || includes cs needle

/-- Model of `trim()`: white space removed at both ends. -/
def trim (s : List Char) : List Char :=
  ((s.dropWhile isJsSpace).reverse.dropWhile isJsSpace).reverse

/-! ## Data model (`App.jsx` lines 13-39) -/

/-- The three icon components imported from `lucide-react` that the agents carry. -/
inductive Icon where
  | brainCircuit
  | cloudRain
  | newspaper
deriving DecidableEq, Repr

/-- One entry of the `agents` array. `icon` is `none` when the entry holds no component
reference, which is the case after a round trip through JSON (see `jsonClone`). -/
structure Agent where
  id : Nat
  name : String
  status : String
  icon : Option Icon
  latency : Nat
  task : Option String
deriving DecidableEq, Repr

/-- One entry of the `logs` array; `type` is the severity tag. -/
structure LogEntry where
  timestamp : String
  source : String
  type : String
  message : String
deriving DecidableEq, Repr

/-- One entry of the `history` array. -/
structure Snapshot where
  agents : List Agent
  logs : List LogEntry
deriving DecidableEq, Repr

/-- The state cells of `App` (lines 13-39). `approvalRequest` is only ever `null` or
`true` in the source and is a `Bool` here (`null` is `false`). `replayIndex` is an
integer because `onScrub` stores whatever number it is handed. -/
structure State where
  agents : List Agent
  logs : List LogEntry
  history : List Snapshot
  isReplayMode : Bool
  replayIndex : Int
  isPlayingReplay : Bool
  prompt : String
  isProcessing : Bool
  approvalRequest : Bool
  lastBriefing : Option String
  showBriefingModal : Bool
  detectedLocation : String
  detectedCategory : String
deriving DecidableEq, Repr

/-- The whole numbers the two random expressions of `handleApprove` (lines 149-150) come
to: `tempDraw` is `Math.floor(Math.random() * (34 - 24) + 24)` less 24, a value from 0 to
10 (the sum is rounded to a double before it is floored, so for the largest values of
`Math.random()` it is 34), and `condDraw` is
`Math.floor(Math.random() * conditions.length)`, a value from 0 to 3 (the product by 4 is
exact and below 4). -/
structure Draws where
  tempDraw : Fin 11
  condDraw : Fin 4
deriving DecidableEq, Repr

/-- The state `App` mounts with (lines 13-39); `clk 0` and `clk 1` stamp the two initial
log entries. -/
def initialState (clk : Nat → String) : State where
  agents :=
    [ { id := 1, name := "Orchestrator Node", status := "active", icon := some Icon.brainCircuit,
        latency := 45, task := some "Analyzing Request" },
      { id := 2, name := "Weather Agent", status := "idle", icon := some Icon.cloudRain,
        latency := 120, task := none },
      { id := 3, name := "News Agent", status := "idle", icon := some Icon.newspaper,
        latency := 210, task := none } ]
  logs :=
    [ { timestamp := clk 0, source := "SYSTEM", type := "INFO",
        message := "Synoptic OS v2.0 Initialized" },
      { timestamp := clk 1, source := "ORCHESTRATOR", type := "INFO",
        message := "Waiting for incoming briefing requests..." } ]
  history := []
  isReplayMode := false
  replayIndex := 0
  isPlayingReplay := false
  prompt := "Morning briefing for Mumbai with tech news"
  isProcessing := false
  approvalRequest := false
  lastBriefing := none
  showBriefingModal := false
  detectedLocation := "Mumbai"
  detectedCategory := "General"

/-! ## Snapshot recorder (lines 41-47) and agent update helper (lines 196-199) -/

/-- Model of `JSON.parse(JSON.stringify(a))` on one agent: numbers, strings and `null`
survive, the icon component (not a JSON value) does not. -/
def jsonClone (a : Agent) : Agent :=
  { a with icon := none }

/-- Model of `recordState`: the functional update `prev => [...prev, snapshot]`. -/
def recordState (currentAgents : List Agent) (currentLogs : List LogEntry)
    (prev : List Snapshot) : List Snapshot :=
  prev ++ [{ agents := currentAgents.map jsonClone, logs := currentLogs }]

/-- Model of `updateAgentsHelper`. -/
def updateAgentsHelper (currentList : List Agent) (id : Nat) (status : String)
    (task : Option String) : List Agent :=
  currentList.map fun a => if a.id = id then { a with status := status, task := task } else a

/-! ## Derivations of `handleSimulateRequest` (lines 70-81) -/

/-- The category chain of lines 75-80: `category` starts as `General` and the first
`includes` test that succeeds on the lower-cased prompt overwrites it. -/
def deriveCategory (prompt : String) : String :=
  let lowerPrompt := toLowerCase prompt.toList
  if includes lowerPrompt "tech".toList then "Technology"
  else if includes lowerPrompt "business".toList || includes lowerPrompt "finance".toList then
    "Business"
  else if includes lowerPrompt "sport".toList then "Sports"
  else if includes lowerPrompt "health".toList then "Health"
  else "General"

/-- A literal keyword of the pattern under the `i` flag: `kw` (lower-case ASCII) is matched
against the start of the input letter by letter, either case; the rest of the input is
returned. -/
def stripCI : List Char → List Char → Option (List Char)
  | [], s => some s
  | _ :: _, [] => none
  | k :: ks, c :: cs => if c.toLower = k then stripCI ks cs else none

/-- The class `[a-zA-Z\s]`. -/
def inClass (c : Char) : Bool :=
  isAsciiLetter c || isJsSpace c

/-- The quantifier `\s+` followed by the rest of the pattern `k`: greedy, so a longer run of
white space is tried before a shorter one. -/
def spacesThen {α : Type} (k : List Char → Option α) : List Char → Option α
  | [] => none
  | c :: cs => if isJsSpace c then (spacesThen k cs).orElse (fun _ => k cs) else none

/-- The group `([a-zA-Z\s]+?)` followed by the rest of the pattern `k`: lazy, so a shorter
capture is tried before a longer one. `acc` is what the group holds so far; `k` receives
the capture and the input after it. -/
def classThen {α : Type} (k : List Char → List Char → Option α) (acc : List Char) :
    List Char → Option α
  | [] => none
  | c :: cs =>
    if inClass c then (k (acc ++ [c]) cs).orElse (fun _ => classThen k (acc ++ [c]) cs)
    else none

/-- The closing group `(?:\s+with|\s+news|$)` tried in that order on the input `rest` after
the capture `cap`; a success returns the capture. -/
def terminator (cap rest : List Char) : Option (List Char) :=
  ((spacesThen (fun r => (stripCI "with".toList r).map fun _ => cap) rest).orElse fun _ =>
    spacesThen (fun r => (stripCI "news".toList r).map fun _ => cap) rest).orElse fun _ =>
    if rest = [] then some cap else none

/-- The whole pattern `(?:in|for)\s+([a-zA-Z\s]+?)(?:\s+with|\s+news|$)` anchored at the
start of `s`; the result is capture group 1. -/
def matchHere (s : List Char) : Option (List Char) :=
  ((stripCI "in".toList s).bind (spacesThen (classThen terminator []))).orElse fun _ =>
    (stripCI "for".toList s).bind (spacesThen (classThen terminator []))

/-- Model of `prompt.match(/(?:in|for)\s+([a-zA-Z\s]+?)(?:\s+with|\s+news|$)/i)` (line 71):
start positions are tried from left to right; the result is capture group 1 of the first
match, `none` when `match` returns `null`. -/
def locationMatch : List Char → Option (List Char)
  | [] => matchHere []
  | c :: cs => (matchHere (c :: cs)).orElse fun _ => locationMatch cs

/-- Line 72: `locationMatch ? locationMatch[1].trim() : 'Mumbai'`. -/
def deriveLocation (prompt : String) : String :=
  match locationMatch prompt.toList with
  | some cap => String.mk (trim cap)
  | none => "Mumbai"

/-! ## Run controller (lines 50-122) -/

/-- Model of `handleSimulateRequest`. The closure values `agents`, `logs` and `prompt` are
the state the handler is called in. -/
def handleSimulateRequest (clk : Nat → String) (s : State) : State :=
  if s.isProcessing then s
  else
    let startAgents := s.agents
    let startLogs := s.logs ++
      [{ timestamp := clk 0, source := "USER", type := "INPUT",
         message := "Request received: \"" ++ s.prompt ++ "\"" }]
    let h0 : List Snapshot := []
    let h1 := recordState startAgents startLogs h0
    -- Step 1: orchestrator analysis
    let agents1 := updateAgentsHelper startAgents 1 "active" (some "Parsing Intent...")
    let location := deriveLocation s.prompt
    let category := deriveCategory s.prompt
    let logs1 := startLogs ++
      [ { timestamp := clk 1, source := "ORCHESTRATOR", type := "INFO",
          message := "Detected Location: " ++ location ++ ", India" },
        { timestamp := clk 2, source := "ORCHESTRATOR", type := "INFO",
          message := "Focus Category: " ++ category },
        { timestamp := clk 3, source := "ORCHESTRATOR", type := "INFO",
          message := "Delegating tasks to Weather & News agents" } ]
    let h2 := recordState agents1 logs1 h1
    -- Step 2: parallel delegation
    let agents2 := updateAgentsHelper agents1 1 "active" (some "Delegating...")
    let agents3 := updateAgentsHelper agents2 2 "active" (some "Fetching Weather data")
    let agents4 := updateAgentsHelper agents3 3 "active" (some "Scraping Tech headlines")
    let h3 := recordState agents4 logs1 h2
    -- Step 3: responses
    let logs2 := logs1 ++
      [{ timestamp := clk 4, source := "WEATHER", type := "SUCCESS",
         message := "Retrieved: 28°C, Haze, Humidity 72%" }]
    let agents5 := updateAgentsHelper agents4 2 "idle" none
    let h4 := recordState agents5 logs2 h3
    let logs3 := logs2 ++
      [{ timestamp := clk 5, source := "NEWS", type := "SUCCESS",
         message := "Retrieved 5 top tech stories" }]
    let agents6 := updateAgentsHelper agents5 3 "idle" none
    let h5 := recordState agents6 logs3 h4
    -- human-in-the-loop pause
    let agents7 := updateAgentsHelper agents6 1 "active" (some "Pending Approval...")
    let logs4 := logs3 ++
      [{ timestamp := clk 6, source := "ORCHESTRATOR", type := "WARN",
         message := "Sensitive content detected. Requesting human review." }]
    let h6 := recordState agents7 logs4 h5
    { s with
      isProcessing := true
      approvalRequest := true
      lastBriefing := none
      showBriefingModal := false
      history := h6
      logs := logs4
      agents := agents7
      detectedLocation := location
      detectedCategory := category }

/-! ## Approval gate (lines 124-194) -/

/-- The array `conditions` of line 148. -/
def conditions : List String :=
  ["Clear Sky", "Haze", "Light Rain", "Partly Cloudy"]

/-- The template literal of lines 152-170. -/
def mockBriefingContent (loc category : String) (temp : Nat) (condition : String) : String :=
  "## Weather & Environment\n" ++
  "    Current conditions in " ++ loc ++ " indicate a temperature of " ++ toString temp ++
  "°C with " ++ condition ++
  ". High humidity at 72% will make real-feel temperatures closer to " ++
  toString (temp + 4) ++ "°C. Visibility is moderate at 4km.\n" ++
  "    \n" ++
  "    • Business Implication: Outdoor meetings should be scheduled for early morning or late evening.\n" ++
  "    • Travel Advisory: Minor delays expected on coastal routes due to visibility.\n" ++
  "\n" ++
  "    ## News & Updates: " ++ category ++ " Sector\n" ++
  "    Key developments from the " ++ loc ++ " " ++ String.mk (toLowerCase category.toList) ++
  " corridor and global markets:\n" ++
  "\n" ++
  "    • " ++ category ++ " Daily: Major announcement expected from top local players.\n" ++
  "    • Market Analysis: " ++ category ++
  " sector sees 15% Q-o-Q rise despite global headwinds.\n" ++
  "    • Regulatory Update: New compliance guidelines for " ++ category ++ " companies.\n" ++
  "    • Innovation: Local startups driving next-gen solutions in " ++ category ++ ".\n" ++
  "    • 5G rollout completes Phase 2 in " ++ loc ++ ", boosting " ++ category ++
  " infrastructure.\n" ++
  "\n" ++
  "    ## Insights & Analysis\n" ++
  "    1. **Strategic Pivot**: With the new TCS and Reliance moves, consider accelerating any AI-partnership discussions locally.\n" ++
  "    2. **Operational**: Ensure all data handling protocols are updated for the new Data Protection Bill compliance check.\n" ++
  "    3. **Logistics**: Leverage the improved 5G connectivity for deploying edge-iot devices in the " ++
  loc ++ " offices."

/-- Model of `handleApprove` (lines 124-175). The handler has no test of
`approvalRequest`: every statement runs in whatever state it is called. -/
def handleApprove (clk : Nat → String) (d : Draws) (s : State) : State :=
  let logs1 := s.logs ++
    [{ timestamp := clk 0, source := "USER", type := "ACTION",
       message := "Human Operator APPROVED workflow." }]
  let agents0 := s.agents
  let h1 := recordState agents0 logs1 s.history
  -- Step 4: synthesis
  let agents1 := updateAgentsHelper agents0 1 "active" (some "Synthesizing Final Briefing...")
  let logs2 := logs1 ++
    [{ timestamp := clk 1, source := "ORCHESTRATOR", type := "INFO",
       message := "Compiling executive summary..." }]
  let h2 := recordState agents1 logs2 h1
  let logs3 := logs2 ++
    [{ timestamp := clk 2, source := "ORCHESTRATOR", type := "SUCCESS",
       message := "Briefing generated successfully" }]
  let agents2 := updateAgentsHelper agents1 1 "idle" none
  let h3 := recordState agents2 logs3 h2
  let temp := d.tempDraw.val + 24
  let condition := conditions.getD d.condDraw.val ""
  { s with
    approvalRequest := false
    logs := logs3
    agents := agents2
    history := h3
    lastBriefing := some (mockBriefingContent s.detectedLocation s.detectedCategory temp condition)
    showBriefingModal := true
    isProcessing := false }

/-- Model of `handleReject` (lines 177-194); like `handleApprove` it has no test of
`approvalRequest`. -/
def handleReject (clk : Nat → String) (s : State) : State :=
  let logs1 := s.logs ++
    [{ timestamp := clk 0, source := "USER", type := "ACTION",
       message := "Human Operator REJECTED workflow." }]
  let agents1 := updateAgentsHelper s.agents 1 "error" (some "Workflow Terminated by User")
  let logs2 := logs1 ++
    [{ timestamp := clk 1, source := "ORCHESTRATOR", type := "ERROR",
       message := "Process aborted." }]
  let h1 := recordState agents1 logs2 s.history
  let agents2 := updateAgentsHelper agents1 1 "idle" none
  let h2 := recordState agents2 logs2 h1
  { s with
    approvalRequest := false
    logs := logs2
    agents := agents2
    history := h2
    isProcessing := false }

/-- The approve button as `App` mounts it: `ApprovalRequest` is rendered only under
`approvalRequest && !isReplayMode` (`App.jsx` lines 266-268) and renders nothing without
a request (`ApprovalRequest.jsx` line 6); a click runs `handleApprove`. -/
def approveControl (clk : Nat → String) (d : Draws) (s : State) : State :=
  if s.approvalRequest && !s.isReplayMode then handleApprove clk d s else s

/-- The reject button as `App` mounts it, under the same condition as the approve
button; a click runs `handleReject`. -/
def rejectControl (clk : Nat → String) (s : State) : State :=
  if s.approvalRequest && !s.isReplayMode then handleReject clk s else s

/-! ## Replay engine (lines 203-236, 328-336) -/

/-- Model of `startReplay` (lines 204-209). -/
def startReplay (s : State) : State :=
  if s.history.length = 0 then s
  else { s with isReplayMode := true, replayIndex := 0, isPlayingReplay := false }

/-- Model of `exitReplay` (lines 211-215). -/
def exitReplay (s : State) : State :=
  { s with isPlayingReplay := false, isReplayMode := false }

/-- Model of the `onPlayPause` prop (line 332). -/
def onPlayPause (s : State) : State :=
  { s with isPlayingReplay := !s.isPlayingReplay }

/-- Model of the `onScrub` prop (line 333): it is `setReplayIndex` itself. -/
def onScrub (target : Int) (s : State) : State :=
  { s with replayIndex := target }

/-- Model of the `onStep` prop (line 334). -/
def onStep (step : Int) (s : State) : State :=
  { s with replayIndex := min (max 0 (s.replayIndex + step)) ((s.history.length : Int) - 1) }

/-- The callback the autoplay interval runs (lines 220-226). -/
def replayTick (s : State) : State :=
  if s.replayIndex ≥ (s.history.length : Int) - 1 then { s with isPlayingReplay := false }
  else { s with replayIndex := s.replayIndex + 1 }

/-- One period of the autoplay effect (lines 217-232): the interval exists only while
`isPlayingReplay` holds (it is cleared otherwise), so its callback runs only then. -/
def autoplayTick (s : State) : State :=
  if s.isPlayingReplay then replayTick s else s

/-- `k` periods of the autoplay effect. -/
def autoplayTicks : Nat → State → State
  | 0, s => s
  | k + 1, s => autoplayTicks k (autoplayTick s)

/-- Model of `history[replayIndex]`: `none` stands for `undefined`. -/
def historyAt (history : List Snapshot) (i : Int) : Option Snapshot :=
  if 0 ≤ i then history.get? i.toNat else none

/-- Line 235: `displayedAgents`. -/
def displayedAgents (s : State) : List Agent :=
  match s.isReplayMode, historyAt s.history s.replayIndex with
  | true, some snap => snap.agents
  | _, _ => s.agents

/-- Line 236: `displayedLogs`. -/
def displayedLogs (s : State) : List LogEntry :=
  match s.isReplayMode, historyAt s.history s.replayIndex with
  | true, some snap => snap.logs
  | _, _ => s.logs

/-- Model of `Math.min(Math.max(lo, x), hi)`, the clamp of the specification. -/
def clamp (x lo hi : Int) : Int :=
  min (max lo x) hi

/-! ## Sample states used by the concrete checks -/

/-- A clock that always reads the same time. -/
def sampleClock : Nat → String :=
  fun _ => "09:00:00"

/-- Some outcome of the two random draws. -/
def sampleDraws : Draws :=
  { tempDraw := 4, condDraw := 1 }

/-- The first run, taken from the mounted state to the approval gate. -/
def gateState : State :=
  handleSimulateRequest sampleClock (initialState sampleClock)

/-- The first run after the operator approved it. -/
def approvedState : State :=
  handleApprove sampleClock sampleDraws gateState

/-- The first run after the operator rejected it. -/
def rejectedState : State :=
  handleReject sampleClock gateState

/-! ## The operations as a transition system -/

/-- The replay operations: `startReplay`, `exitReplay`, `onStep`, `onScrub`, `onPlayPause`
and one period of the autoplay interval. -/
inductive ReplayOp where
  | enterReplay
  | exitReplay
  | step (delta : Int)
  | scrub (target : Int)
  | togglePlay
  | tick

/-- What a replay operation does to the state. -/
def ReplayOp.apply : ReplayOp → State → State
  | .enterReplay, s => startReplay s
  | .exitReplay, s => Synoptic.exitReplay s
  | .step delta, s => onStep delta s
  | .scrub target, s => onScrub target s
  | .togglePlay, s => onPlayPause s
  | .tick, s => autoplayTick s

/-- Every operation of `App`: typing into the prompt field (line 280), the three run
handlers with the clock (and draws) they consume, and the replay operations. -/
inductive Op where
  | setPrompt (p : String)
  | startRun (clk : Nat → String)
  | approve (clk : Nat → String) (d : Draws)
  | reject (clk : Nat → String)
  | replay (r : ReplayOp)

/-- What an operation does to the state: the handler itself, with no regard to whether
its control is mounted or enabled. -/
def Op.apply : Op → State → State
  | .setPrompt p, s => { s with prompt := p }
  | .startRun clk, s => handleSimulateRequest clk s
  | .approve clk d, s => handleApprove clk d s
  | .reject clk, s => handleReject clk s
  | .replay r, s => r.apply s

/-- A sequence of operations, applied from left to right. -/
def runOps : List Op → State → State
  | [], s => s
  | op :: ops, s => runOps ops (op.apply s)

/-- The two restrictions the controls put on the arguments the handlers receive that
matter for the replay cursor: the slider hands `onScrub` a value between its `min` 0 and
its `max` `historyLength - 1` (`TimeTravelControls.jsx` lines 25-32), and the Execute
button is disabled while replay mode is on (`App.jsx` line 290). Every other operation is
left unrestricted. -/
def Op.withinControls : Op → State → Bool
  | .replay (.scrub target), s => decide (0 ≤ target ∧ target ≤ (s.history.length : Int) - 1)
  | .startRun _, s => !s.isReplayMode
  | _, _ => true

/-- The states the operations lead to from the mounted state, every operation being
allowed in every state. -/
inductive Reachable : State → Prop where
  | init (clk : Nat → String) : Reachable (initialState clk)
  | step (op : Op) (s : State) : Reachable s → Reachable (op.apply s)

/-- The states the operations lead to from the mounted state when `onScrub` and
`handleSimulateRequest` are called only as `Op.withinControls` allows. -/
inductive ReachableWithinControls : State → Prop where
  | init (clk : Nat → String) : ReachableWithinControls (initialState clk)
  | step (op : Op) (s : State) :
      ReachableWithinControls s → op.withinControls s = true →
      ReachableWithinControls (op.apply s)

/-- The replay cursor points into the snapshot sequence. -/
def cursorInRange (s : State) : Prop :=
  0 ≤ s.replayIndex ∧ s.replayIndex ≤ (s.history.length : Int) - 1

instance (s : State) : Decidable (cursorInRange s) := by
  unfold cursorInRange
  infer_instance

/-- A four-entry history: the snapshots a run has recorded once the weather agent has
answered (line 105), opened in replay mode at index 0 with autoplay off. -/
def fourEntryReplay : State :=
  { gateState with
    history := gateState.history.take 4
    isReplayMode := true
    replayIndex := 0
    isPlayingReplay := false }

/-- The first run, approved, then opened in replay mode and scrubbed to 999. -/
def scrubbedFarState : State :=
  runOps [.startRun sampleClock, .approve sampleClock sampleDraws, .replay .enterReplay,
    .replay (.scrub 999)] (initialState sampleClock)

/-- The first run, approved, opened in replay mode, stepped to its last snapshot (index 8),
and `handleSimulateRequest` called again from there. -/
def rerunInReplayState : State :=
  runOps [.startRun sampleClock, .approve sampleClock sampleDraws, .replay .enterReplay,
    .replay (.step 8), .startRun sampleClock] (initialState sampleClock)

/-- The first run, approved, opened in replay mode and stepped forward twice. -/
def steppedState : State :=
  runOps [.startRun sampleClock, .approve sampleClock sampleDraws, .replay .enterReplay,
    .replay (.step 1), .replay (.step 1)] (initialState sampleClock)

/-- The restriction of `Op.withinControls` on a replay operation alone. -/
def ReplayOp.withinRange : ReplayOp → State → Bool
  | .scrub target, s => decide (0 ≤ target ∧ target ≤ (s.history.length : Int) - 1)
  | _, _ => true

/-- Every operation of the sequence is called as `Op.withinControls` allows in the state
it is applied to. -/
def opsWithinControls : List Op → State → Bool
  | [], _ => true
  | op :: ops, s => op.withinControls s && opsWithinControls ops (op.apply s)

/-! ## The category rules as the specification words them -/

/-- Following the specification: the ordered rule list, each rule a set of keywords and
the category it stands for. -/
def categoryRules : List (List String × String) :=
  [ (["tech"], "Technology"),
    (["business", "finance"], "Business"),
    (["sport"], "Sports"),
    (["health"], "Health") ]

/-- Following the specification: the first rule of the list one of whose keywords occurs in
the lower-cased prompt wins; without a matching rule the category is General. -/
def firstMatchingCategory (lowered : List Char) : String :=
  match categoryRules.find? (fun rule => rule.1.any fun kw => includes lowered kw.toList) with
  | some rule => rule.2
  | none => "General"

/-! ## The location pattern as the specification words it -/

/-- The keyword of the pattern: `in` or `for`, letters in either case. -/
def IsKeyword (kw : List Char) : Prop :=
  kw.map Char.toLower = "in".toList ∨ kw.map Char.toLower = "for".toList

/-- One or more white-space characters. -/
def IsSpaces (ws : List Char) : Prop :=
  ws ≠ [] ∧ ∀ c ∈ ws, isJsSpace c = true

/-- A non-empty run of ASCII letters and white space. -/
def IsRun (x : List Char) : Prop :=
  x ≠ [] ∧ ∀ c ∈ x, inClass c = true

/-- What may follow the capture: white space and `with`, white space and `news` (letters
in either case), or the end of the string. -/
def Closes (rest : List Char) : Prop :=
  (∃ ws w post, rest = ws ++ (w ++ post) ∧ IsSpaces ws ∧
    (w.map Char.toLower = "with".toList ∨ w.map Char.toLower = "news".toList)) ∨
  rest = []

/-- The part of the pattern after the keyword, read at the start of `r`: the white-space
run `ws`, the capture `x`, and a closing. -/
def RunMatch (r ws x : List Char) : Prop :=
  ∃ rest, r = ws ++ (x ++ rest) ∧ IsSpaces ws ∧ IsRun x ∧ Closes rest

/-- The pattern read at the start of `s`: a keyword, then white-space run, capture and
closing. -/
def HereMatch (s ws x : List Char) : Prop :=
  ∃ kw r, s = kw ++ r ∧ IsKeyword kw ∧ RunMatch r ws x

/-- The pattern matches inside `p`: after `pre` come a keyword, the white-space run `ws`,
the capture `x`, and a closing. -/
def PatternMatch (p pre ws x : List Char) : Prop :=
  ∃ s, p = pre ++ s ∧ HereMatch s ws x

/-- Following the claim: `x` is the capture of the leftmost match, the shortest run that
lets the pattern match there. -/
def ShortestCaptureOfLeftmost (p x : List Char) : Prop :=
  ∃ pre ws, PatternMatch p pre ws x ∧
    (∀ pre2 ws2 x2, PatternMatch p pre2 ws2 x2 → pre.length ≤ pre2.length) ∧
    (∀ ws2 x2, PatternMatch p pre ws2 x2 → x.length ≤ x2.length)

/-- The capture as the pattern's quantifiers order the search: the leftmost match; there the
longest white-space run after the keyword for which a capture exists (`\s+` is greedy);
for that run the shortest capture (`+?` is lazy). -/
def GreedyLazyCapture (p x : List Char) : Prop :=
  ∃ pre ws, PatternMatch p pre ws x ∧
    (∀ pre2 ws2 x2, PatternMatch p pre2 ws2 x2 → pre.length ≤ pre2.length) ∧
    (∀ ws2 x2, PatternMatch p pre ws2 x2 → ws2.length ≤ ws.length) ∧
    (∀ x2, PatternMatch p pre ws x2 → x.length ≤ x2.length)

/-- The fields of an agent that are JSON values: id, name, status, task and latency. -/
def agentFields (a : Agent) : Nat × String × String × Option String × Nat :=
  (a.id, a.name, a.status, a.task, a.latency)

/-- The fields of an agent the run controller never writes: id, name, icon and latency. -/
def agentIdentity (a : Agent) : Nat × String × Option Icon × Nat :=
  (a.id, a.name, a.icon, a.latency)

/-! ## Separate words, as the claim on the location keyword words it -/

/-- A character that belongs to a word: a letter, a digit or the underscore. -/
def isWordChar (c : Char) : Bool :=
  c.isAlphanum || c = '_'

/-- Following the claim: the keyword `kw` (letters in either case) occurs in the text as a
separate word, that is with no word character right before it and none right after it.
`prevWord` tells whether the character before the text is a word character. -/
def occursAsWordFrom (kw : List Char) (prevWord : Bool) : List Char → Bool
  | [] => false
  | c :: cs =>
    (!prevWord &&
      (match stripCI kw (c :: cs) with
       | some [] => true
       | some (d :: _) => !isWordChar d
       | none => false)) ||
    occursAsWordFrom kw (isWordChar c) cs

/-- Following the claim: `kw` occurs in the prompt as a separate word. -/
def occursAsWord (kw : String) (prompt : String) : Bool :=
  occursAsWordFrom kw.toList false prompt.toList

/-- The text starts with `in` or `for` (letters in either case) directly followed by a
white-space character. -/
def keywordThenSpaceHere (s : List Char) : Bool :=
  (match stripCI "in".toList s with
   | some (c :: _) => isJsSpace c
   | _ => false) ||
  (match stripCI "for".toList s with
   | some (c :: _) => isJsSpace c
   | _ => false)

/-- Somewhere in the text, whether as a word of its own or inside or at the end of a
longer word, `in` or `for` is directly followed by a white-space character. -/
def keywordThenSpace : List Char → Bool
  | [] => false
  | c :: cs => keywordThenSpaceHere (c :: cs) || keywordThenSpace cs

/-! ## Saved briefings (`static/js/briefing.js` lines 33-34 and 456-515)

Here the lengths of strings matter, so a JavaScript string is the list of its UTF-16 code
units, which is what `length`, `substring`, `charAt` and `slice` count. -/

/-- A JavaScript string value: its UTF-16 code units. -/
abbrev JsString := List Nat

/-- The code units of one character: itself in the Basic Multilingual Plane, a surrogate
pair above it. -/
def utf16Char (c : Char) : JsString :=
  if c.toNat < 0x10000 then [c.toNat]
  else [0xD800 + (c.toNat - 0x10000) / 0x400, 0xDC00 + (c.toNat - 0x10000) % 0x400]

/-- The JavaScript string a string literal denotes. -/
def utf16 (s : String) : JsString :=
  s.toList.flatMap utf16Char

/-- White space as `trim()` sees it, on code units (the code points of `isJsSpace`). -/
def isSpaceUnit (u : Nat) : Bool :=
  u = 0x09 || u = 0x0A || u = 0x0B || u = 0x0C || u = 0x0D ||
  u = 0x20 || u = 0xA0 || u = 0x1680 ||
  (0x2000 ≤ u && u ≤ 0x200A) ||
  u = 0x2028 || u = 0x2029 || u = 0x202F || u = 0x205F ||
  u = 0x3000 || u = 0xFEFF

/-- Model of `trim()` on code units. -/
def trimUnits (s : JsString) : JsString :=
  ((s.dropWhile isSpaceUnit).reverse.dropWhile isSpaceUnit).reverse

/-- Line 512: `title.charAt(0).toUpperCase() + title.slice(1)`. `upper` is the
upper-casing of a one-unit string by `toUpperCase()`, a function of the JavaScript engine;
`charAt(0)` of the empty string is the empty string, whose upper-case form is empty. -/
def capitalizeFirst (upper : Nat → JsString) (title : JsString) : JsString :=
  (match title.head? with
   | some u => upper u
   | none => []) ++ title.drop 1

/-- Model of `generateBriefingTitle` (lines 501-515); `!query` holds for the empty
string. -/
def generateBriefingTitle (upper : Nat → JsString) (query : JsString) : JsString :=
  if query = [] then utf16 "Untitled Briefing"
  else
    let title := trimUnits query
    let title := if title.length > 60 then title.take 57 ++ utf16 "..." else title
    capitalizeFirst upper title

/-- One saved briefing (lines 458-465). -/
structure Briefing where
  id : JsString
  title : JsString
  query : JsString
  content : JsString
  timestamp : JsString
  date : JsString
deriving DecidableEq, Repr

/-- What the clock hands `saveBriefingToHistory`: `Date.now().toString()`,
`new Date().toISOString()` and `new Date().toLocaleDateString()`. -/
structure SaveStamp where
  id : JsString
  timestamp : JsString
  date : JsString
deriving DecidableEq, Repr

/-- The variables `briefingHistory` and `currentHistoryId` (lines 33-34) and the item
`briefingHistory` of `localStorage` (`none` while nothing is stored). -/
structure HistoryStore where
  briefingHistory : List Briefing
  currentHistoryId : Option JsString
  stored : Option (List Briefing)
deriving DecidableEq, Repr

/-- Model of `saveBriefingToHistory` (lines 456-485): `unshift`, the cut to 50 entries,
the write to `localStorage`, the new current id; the result is the store and the returned
id. The redraw of the list is not part of the model. -/
def saveBriefingToHistory (upper : Nat → JsString) (stamp : SaveStamp)
    (query content : JsString) (store : HistoryStore) : HistoryStore × JsString :=
  let briefing : Briefing :=
    { id := stamp.id
      title := generateBriefingTitle upper query
      query := query
      content := content
      timestamp := stamp.timestamp
      date := stamp.date }
  let unshifted := briefing :: store.briefingHistory
  let kept := if unshifted.length > 50 then unshifted.take 50 else unshifted
  ({ briefingHistory := kept, currentHistoryId := some briefing.id, stored := some kept },
    briefing.id)

/-- The value `MAX_HISTORY_ITEMS` of `config.js` (line 51). -/
def MAX_HISTORY_ITEMS : Nat := 50

/-- The upper-casing of a one-unit string for the units the concrete checks use: `a-z` go
to `A-Z` and U+00DF (sharp s) goes to `SS`, as `toUpperCase()` has them; any other unit
is returned as it is, which is right for the digits, blanks and capitals of ASCII and is
not a statement about the rest. -/
def upperUnit (u : Nat) : JsString :=
  if 0x61 ≤ u ∧ u ≤ 0x7A then [u - 0x20]
  else if u = 0xDF then [0x53, 0x53]
  else [u]

/-- A query of 60 units: a sharp s followed by 59 times the letter `a`. -/
def sharpSQuery : JsString :=
  0xDF :: List.replicate 59 0x61

/-- A store holding 60 saved briefings, numbered 0 to 59 in their ids. -/
def sixtyBriefings : HistoryStore :=
  { briefingHistory := (List.range 60).map fun k =>
      { id := [k], title := [], query := [], content := [], timestamp := [], date := [] }
    currentHistoryId := none
    stored := none }

/-- The text `part` occurs inside `text`. -/
def HasPart (part text : String) : Prop :=
  ∃ pre post, text = pre ++ part ++ post

/-! ## The agent cards (`App.jsx` lines 245-247, `components/AgentStatusCard.jsx`) -/

/-- What `AgentStatusCard` puts on screen for one agent: the icon it mounts (line 26), the
name and status (lines 29-30), the task text (line 41) and the latency (line 48). -/
structure CardView where
  icon : Icon
  name : String
  status : String
  task : String
  latency : Nat
deriving DecidableEq, Repr

/-- Model of `AgentStatusCard`: the card mounts `agent.icon` as a component
(`<Icon size={24} />`, line 26); when the agent holds no component React rejects the
element and the render throws, which is `none`. Line 41 shows
`task || 'Awaiting instructions...'`. -/
def agentStatusCard (agent : Agent) : Option CardView :=
  match agent.icon with
  | none => none
  | some icon =>
    some { icon := icon
           name := agent.name
           status := agent.status
           task := match agent.task with
             | some t => if t = "" then "Awaiting instructions..." else t
             | none => "Awaiting instructions..."
           latency := agent.latency }

/-- The cards of a list of agents; one card that throws makes the render throw. -/
def agentCards : List Agent → Option (List CardView)
  | [] => some []
  | a :: rest =>
    match agentStatusCard a, agentCards rest with
    | some card, some cards => some (card :: cards)
    | _, _ => none

/-- Lines 245-247: `displayedAgents.map(agent => <AgentStatusCard ... agent={agent} />)`. -/
def renderAgentCards (s : State) : Option (List CardView) :=
  agentCards (displayedAgents s)

/-- The first run, approved, opened in replay mode and moved to its last index, 8. -/
def replayAtLastState : State :=
  runOps [.startRun sampleClock, .approve sampleClock sampleDraws, .replay .enterReplay,
    .replay (.scrub 8)] (initialState sampleClock)

/-! # Theorems -/

/-! ## Lengths of the log and of the snapshot sequence -/

@[simp] theorem recordState_length (a : List Agent) (l : List LogEntry) (h : List Snapshot) :
    (recordState a l h).length = h.length + 1 := by
  simp [recordState]

theorem handleApprove_logs (clk : Nat → String) (d : Draws) (s : State) :
    (handleApprove clk d s).logs = s.logs ++
      [ { timestamp := clk 0, source := "USER", type := "ACTION",
          message := "Human Operator APPROVED workflow." },
        { timestamp := clk 1, source := "ORCHESTRATOR", type := "INFO",
          message := "Compiling executive summary..." },
        { timestamp := clk 2, source := "ORCHESTRATOR", type := "SUCCESS",
          message := "Briefing generated successfully" } ] := by
  simp [handleApprove]

theorem handleApprove_history_length (clk : Nat → String) (d : Draws) (s : State) :
    (handleApprove clk d s).history.length = s.history.length + 3 := by
  simp [handleApprove]

theorem handleReject_logs (clk : Nat → String) (s : State) :
    (handleReject clk s).logs = s.logs ++
      [ { timestamp := clk 0, source := "USER", type := "ACTION",
          message := "Human Operator REJECTED workflow." },
        { timestamp := clk 1, source := "ORCHESTRATOR", type := "ERROR",
          message := "Process aborted." } ] := by
  simp [handleReject]

theorem handleReject_history_length (clk : Nat → String) (s : State) :
    (handleReject clk s).history.length = s.history.length + 2 := by
  simp [handleReject]

theorem handleSimulateRequest_history_length (clk : Nat → String) (s : State)
    (h : s.isProcessing = false) :
    (handleSimulateRequest clk s).history.length = 6 := by
  simp [handleSimulateRequest, h]

theorem handleSimulateRequest_flags (clk : Nat → String) (s : State)
    (h : s.isProcessing = false) :
    (handleSimulateRequest clk s).isProcessing = true ∧
    (handleSimulateRequest clk s).approvalRequest = true ∧
    (handleSimulateRequest clk s).lastBriefing = none ∧
    (handleSimulateRequest clk s).isReplayMode = s.isReplayMode := by
  simp [handleSimulateRequest, h]

/-! ## C1: approve outside the pending gate -/

/-- C1, as stated, fails on `handleApprove`: called again on the state a completed approve
left (gate not pending), it appends three more log entries and three more snapshots. -/
theorem handleApprove_second_call_appends :
    approvedState.approvalRequest = false ∧
    (handleApprove sampleClock sampleDraws approvedState).logs.length
      = approvedState.logs.length + 3 ∧
    (handleApprove sampleClock sampleDraws approvedState).history.length
      = approvedState.history.length + 3 ∧
    handleApprove sampleClock sampleDraws approvedState ≠ approvedState := by
  refine ⟨rfl, ?_, ?_, ?_⟩
  · rw [handleApprove_logs]; simp
  · exact handleApprove_history_length _ _ _
  · intro h
    have h2 := congrArg (fun t => t.history.length) h
    simp only [handleApprove_history_length] at h2
    omega

/-- C1 (amended): the approve button exists only while the gate is pending and replay mode
is off. In every state where the gate is not pending a click on it changes nothing; while
it is pending (replay off) the click runs `handleApprove`; hence a second click after a
first one leaves the whole state (event log, snapshots, agents, result artifact) as the
first click left it. -/
theorem approveControl_noop_unless_pending (clk clk2 : Nat → String) (d d2 : Draws) (s : State) :
    (s.approvalRequest = false → approveControl clk d s = s) ∧
    (s.approvalRequest = true → s.isReplayMode = false →
      approveControl clk d s = handleApprove clk d s) ∧
    approveControl clk2 d2 (approveControl clk d s) = approveControl clk d s := by
  refine ⟨?_, ?_, ?_⟩
  · intro h; simp [approveControl, h]
  · intro h1 h2; simp [approveControl, h1, h2]
  · by_cases h : (s.approvalRequest && !s.isReplayMode) = true
    · have e : approveControl clk d s = handleApprove clk d s := by simp [approveControl, h]
      rw [e]
      simp [approveControl, handleApprove]
    · have e : approveControl clk d s = s := by simp [approveControl, h]
      rw [e]
      simp [approveControl, h]

/-- C1 (amended), at the first run: the click at the gate runs the handler, the click after
it changes nothing. -/
theorem approveControl_noop_unless_pending_witness :
    approveControl sampleClock sampleDraws gateState = approvedState ∧
    approveControl sampleClock sampleDraws approvedState = approvedState :=
  ⟨(approveControl_noop_unless_pending sampleClock sampleClock sampleDraws sampleDraws
      gateState).2.1 rfl rfl,
   (approveControl_noop_unless_pending sampleClock sampleClock sampleDraws sampleDraws
      approvedState).1 rfl⟩

/-! ## C6: reject outside the pending gate -/

/-- C6, as stated, fails on `handleReject`: called after a completed approve or before any
run (gate not pending in both), it appends two log entries and two snapshots, and in the
mounted state it also rewrites the orchestrator. -/
theorem handleReject_outside_gate_appends :
    approvedState.approvalRequest = false ∧
    (handleReject sampleClock approvedState).logs.length = approvedState.logs.length + 2 ∧
    (handleReject sampleClock approvedState).history.length
      = approvedState.history.length + 2 ∧
    (initialState sampleClock).approvalRequest = false ∧
    (handleReject sampleClock (initialState sampleClock)).history.length = 2 ∧
    (handleReject sampleClock (initialState sampleClock)).agents
      ≠ (initialState sampleClock).agents := by
  refine ⟨rfl, ?_, ?_, rfl, ?_, ?_⟩
  · rw [handleReject_logs]; simp
  · exact handleReject_history_length _ _
  · rw [handleReject_history_length]; rfl
  · decide

/-- C6 (amended): the reject button exists only while the gate is pending and replay mode
is off. In every state where the gate is not pending (before a run reached the gate, after
an approve, after a reject) a click on it leaves the whole state unchanged, so the event
log, the agents, the snapshot sequence and the in-progress flag are as they were; while
the gate is pending (replay off) the click runs `handleReject`. -/
theorem rejectControl_noop_unless_pending (clk clk2 : Nat → String) (s : State) :
    (s.approvalRequest = false → rejectControl clk s = s) ∧
    (s.approvalRequest = true → s.isReplayMode = false →
      rejectControl clk s = handleReject clk s) ∧
    rejectControl clk2 (rejectControl clk s) = rejectControl clk s := by
  refine ⟨?_, ?_, ?_⟩
  · intro h; simp [rejectControl, h]
  · intro h1 h2; simp [rejectControl, h1, h2]
  · by_cases h : (s.approvalRequest && !s.isReplayMode) = true
    · have e : rejectControl clk s = handleReject clk s := by simp [rejectControl, h]
      rw [e]
      simp [rejectControl, handleReject]
    · have e : rejectControl clk s = s := by simp [rejectControl, h]
      rw [e]
      simp [rejectControl, h]

/-- C6 (amended), at the first run: before the run, after the approve and after the
reject the click changes nothing; at the gate it runs the handler. -/
theorem rejectControl_noop_unless_pending_witness :
    rejectControl sampleClock (initialState sampleClock) = initialState sampleClock ∧
    rejectControl sampleClock approvedState = approvedState ∧
    rejectControl sampleClock rejectedState = rejectedState ∧
    rejectControl sampleClock gateState = rejectedState :=
  ⟨(rejectControl_noop_unless_pending sampleClock sampleClock
      (initialState sampleClock)).1 rfl,
   (rejectControl_noop_unless_pending sampleClock sampleClock approvedState).1 rfl,
   (rejectControl_noop_unless_pending sampleClock sampleClock rejectedState).1 rfl,
   (rejectControl_noop_unless_pending sampleClock sampleClock gateState).2.1 rfl rfl⟩

/-! ## C8: snapshot counts of the two paths -/

/-- C8: whatever the prompt `p` and the state `s` a run starts from (no run in progress),
the run records 6 snapshots up to the gate; approving leaves 9 in the sequence (3 more),
rejecting leaves 8 (2 more), and the reject count is the smaller one. -/
theorem snapshot_counts_of_paths (clk clk2 : Nat → String) (d : Draws) (p : String) (s : State)
    (h : s.isProcessing = false) :
    (handleSimulateRequest clk { s with prompt := p }).history.length = 6 ∧
    (handleApprove clk2 d (handleSimulateRequest clk { s with prompt := p })).history.length
      = 9 ∧
    (handleReject clk2 (handleSimulateRequest clk { s with prompt := p })).history.length
      = 8 ∧
    (handleReject clk2 (handleSimulateRequest clk { s with prompt := p })).history.length
      < (handleApprove clk2 d
          (handleSimulateRequest clk { s with prompt := p })).history.length := by
  have h6 : (handleSimulateRequest clk { s with prompt := p }).history.length = 6 :=
    handleSimulateRequest_history_length clk _ h
  have h9 := handleApprove_history_length clk2 d (handleSimulateRequest clk { s with prompt := p })
  have h8 := handleReject_history_length clk2 (handleSimulateRequest clk { s with prompt := p })
  omega

/-- C8 at a second run, started from the state the first (approved, 9 snapshots) run
left, with another prompt. -/
theorem snapshot_counts_of_paths_witness :
    (handleSimulateRequest sampleClock
      { approvedState with prompt := "Sports in Pune" }).history.length = 6 ∧
    (handleApprove sampleClock sampleDraws (handleSimulateRequest sampleClock
      { approvedState with prompt := "Sports in Pune" })).history.length = 9 ∧
    (handleReject sampleClock (handleSimulateRequest sampleClock
      { approvedState with prompt := "Sports in Pune" })).history.length = 8 ∧
    (handleReject sampleClock (handleSimulateRequest sampleClock
      { approvedState with prompt := "Sports in Pune" })).history.length
      < (handleApprove sampleClock sampleDraws (handleSimulateRequest sampleClock
          { approvedState with prompt := "Sports in Pune" })).history.length :=
  snapshot_counts_of_paths sampleClock sampleClock sampleDraws "Sports in Pune"
    approvedState rfl

/-! ## C9: the re-entrancy guard of `handleSimulateRequest` -/

/-- C9: while a run is in progress `handleSimulateRequest` returns the state it was given,
so agents, event log, snapshot sequence, gate state, result artifact and in-progress flag
are unchanged; this covers the state a run is suspended in at the gate, which is in
progress. -/
theorem handleSimulateRequest_noop_while_processing (clk clk0 : Nat → String) (s s0 : State)
    (h : s.isProcessing = true) (h0 : s0.isProcessing = false) :
    handleSimulateRequest clk s = s ∧
    (handleSimulateRequest clk0 s0).isProcessing = true ∧
    handleSimulateRequest clk (handleSimulateRequest clk0 s0) = handleSimulateRequest clk0 s0 := by
  have hg : (handleSimulateRequest clk0 s0).isProcessing = true :=
    (handleSimulateRequest_flags clk0 s0 h0).1
  refine ⟨?_, hg, ?_⟩
  · simp [handleSimulateRequest, h]
  · generalize handleSimulateRequest clk0 s0 = g at hg
    simp [handleSimulateRequest, hg]

/-- C9 at the first run suspended at the gate. -/
theorem handleSimulateRequest_noop_while_processing_witness :
    handleSimulateRequest sampleClock gateState = gateState ∧
    (handleSimulateRequest sampleClock (initialState sampleClock)).isProcessing = true ∧
    handleSimulateRequest sampleClock
        (handleSimulateRequest sampleClock (initialState sampleClock))
      = handleSimulateRequest sampleClock (initialState sampleClock) :=
  handleSimulateRequest_noop_while_processing sampleClock sampleClock gateState
    (initialState sampleClock) rfl rfl

/-! ## C10: the replay operations leave the live state alone -/

/-- C10: every replay operation (enter, exit, step, scrub, toggle play, autoplay tick)
changes at most the replay-mode flag, the cursor index and the playing flag: agents, logs,
snapshot sequence and every other field are as before; in particular after the cycle
enterReplay, scrub(target), exitReplay the live agent list and the live event log are
exactly what they were. -/
theorem replay_ops_leave_live_state (r : ReplayOp) (target : Int) (s : State) :
    r.apply s =
      { s with
        isReplayMode := (r.apply s).isReplayMode
        replayIndex := (r.apply s).replayIndex
        isPlayingReplay := (r.apply s).isPlayingReplay } ∧
    (r.apply s).agents = s.agents ∧ (r.apply s).logs = s.logs ∧
    (r.apply s).history = s.history ∧
    (exitReplay (onScrub target (startReplay s))).agents = s.agents ∧
    (exitReplay (onScrub target (startReplay s))).logs = s.logs ∧
    (exitReplay (onScrub target (startReplay s))).history = s.history := by
  have frame : ∀ t : State, (exitReplay (onScrub target (startReplay t))).agents = t.agents ∧
      (exitReplay (onScrub target (startReplay t))).logs = t.logs ∧
      (exitReplay (onScrub target (startReplay t))).history = t.history := by
    intro t
    simp only [startReplay, exitReplay, onScrub]
    split <;> exact ⟨rfl, rfl, rfl⟩
  refine ⟨?_, ?_, ?_, ?_, (frame s).1, (frame s).2.1, (frame s).2.2⟩
  all_goals
    cases r <;>
      simp only [ReplayOp.apply, startReplay, Synoptic.exitReplay, onStep, onScrub,
        onPlayPause, autoplayTick, replayTick] <;>
      (repeat' split) <;> rfl

/-! ## C2: scrub -/

/-- C2, as stated, fails on `onScrub`: on a 6-entry history `scrub(-5)` leaves the index at
-5 (the clamp is 0) and `scrub(999)` leaves it at 999 (the clamp is 5). -/
theorem onScrub_stores_out_of_range :
    (startReplay gateState).history.length = 6 ∧
    (onScrub (-5) (startReplay gateState)).replayIndex = -5 ∧
    clamp (-5) 0 (((startReplay gateState).history.length : Int) - 1) = 0 ∧
    (onScrub 999 (startReplay gateState)).replayIndex = 999 ∧
    clamp 999 0 (((startReplay gateState).history.length : Int) - 1) = 5 := by
  refine ⟨?_, rfl, ?_, rfl, ?_⟩
  · simp [startReplay, gateState, handleSimulateRequest, initialState]
  · decide
  · decide

/-- C2 (amended): for a snapshot sequence of length n and a target within [0, n-1], which
is what the slider (min 0, max n-1) hands over, `scrub(target)` sets the replay index to
clamp(target, 0, n-1), that is to the target itself. -/
theorem onScrub_in_range (s : State) (target : Int) (h0 : 0 ≤ target)
    (h1 : target ≤ (s.history.length : Int) - 1) :
    (onScrub target s).replayIndex = clamp target 0 ((s.history.length : Int) - 1) ∧
    (onScrub target s).replayIndex = target := by
  simp only [onScrub, clamp, max_eq_right h0, min_eq_left h1, and_self]

/-- C2 (amended) on the 6-entry history of the first run: the two ends of the slider. -/
theorem onScrub_in_range_witness :
    ((onScrub 0 (startReplay gateState)).replayIndex
        = clamp 0 0 (((startReplay gateState).history.length : Int) - 1) ∧
      (onScrub 0 (startReplay gateState)).replayIndex = 0) ∧
    ((onScrub 5 (startReplay gateState)).replayIndex
        = clamp 5 0 (((startReplay gateState).history.length : Int) - 1) ∧
      (onScrub 5 (startReplay gateState)).replayIndex = 5) :=
  ⟨onScrub_in_range (startReplay gateState) 0 (by decide) (by decide),
   onScrub_in_range (startReplay gateState) 5 (by decide) (by decide)⟩

/-! ## C3: autoplay from the first snapshot -/

theorem autoplayTick_advance (s : State) (hplay : s.isPlayingReplay = true)
    (hidx : s.replayIndex < (s.history.length : Int) - 1) :
    autoplayTick s = { s with replayIndex := s.replayIndex + 1 } := by
  have hlt : ¬ (s.replayIndex ≥ (s.history.length : Int) - 1) := by omega
  simp only [autoplayTick, hplay, replayTick, if_true, if_neg hlt]

theorem autoplayTicks_advance (k : Nat) (s : State) (hplay : s.isPlayingReplay = true)
    (hk : s.replayIndex + (k : Int) ≤ (s.history.length : Int) - 1) :
    autoplayTicks k s = { s with replayIndex := s.replayIndex + (k : Int) } := by
  induction k generalizing s with
  | zero => simp [autoplayTicks]
  | succ k ih =>
    have hk2 : s.replayIndex + 1 + (k : Int) ≤ (s.history.length : Int) - 1 := by
      push_cast at hk; omega
    rw [autoplayTicks, autoplayTick_advance s hplay (by omega),
      ih { s with replayIndex := s.replayIndex + 1 } hplay hk2]
    have e : s.replayIndex + 1 + (k : Int) = s.replayIndex + ((k + 1 : Nat) : Int) := by
      push_cast; omega
    simp only [e]

theorem autoplayTick_at_end (s : State) (hplay : s.isPlayingReplay = true)
    (hidx : s.replayIndex ≥ (s.history.length : Int) - 1) :
    autoplayTick s = { s with isPlayingReplay := false } := by
  simp only [autoplayTick, hplay, replayTick, if_true, if_pos hidx]

theorem autoplayTicks_succ (k : Nat) (s : State) :
    autoplayTicks (k + 1) s = autoplayTick (autoplayTicks k s) := by
  induction k generalizing s with
  | zero => rfl
  | succ k ih => rw [autoplayTicks, ih (autoplayTick s)]; rfl

/-- C3, as stated, fails: on a 4-entry history, autoplay started at index 0, after 3 ticks
the index is 3 but `isPlayingReplay` is still true. -/
theorem autoplay_still_playing_after_three_ticks :
    fourEntryReplay.history.length = 4 ∧ fourEntryReplay.replayIndex = 0 ∧
    (autoplayTicks 3 (onPlayPause fourEntryReplay)).replayIndex = 3 ∧
    (autoplayTicks 3 (onPlayPause fourEntryReplay)).isPlayingReplay = true := by
  have hlen : fourEntryReplay.history.length = 4 := by
    simp [fourEntryReplay, gateState, handleSimulateRequest, initialState, recordState]
  have h := autoplayTicks_advance 3 (onPlayPause fourEntryReplay) rfl
    (by show (0 : Int) + ((3 : Nat) : Int) ≤ (fourEntryReplay.history.length : Int) - 1
        rw [hlen]; decide)
  rw [h]
  exact ⟨hlen, rfl, rfl, rfl⟩

/-- C3 (amended): autoplay started at index 0 of an n-entry history (n >= 2) has, after
n-1 ticks, index n-1 with playing still true; the next tick, the n-th, leaves the index at
n-1 and sets playing to false. For a 4-entry history: after 3 ticks index 3, after 4 ticks
index 3 and playing false. -/
theorem autoplay_from_start (s : State) (n : Nat) (hn : 2 ≤ n) (hlen : s.history.length = n)
    (hidx : s.replayIndex = 0) (hplay : s.isPlayingReplay = false) :
    (autoplayTicks (n - 1) (onPlayPause s)).replayIndex = (n : Int) - 1 ∧
    (autoplayTicks (n - 1) (onPlayPause s)).isPlayingReplay = true ∧
    (autoplayTicks n (onPlayPause s)).replayIndex = (n : Int) - 1 ∧
    (autoplayTicks n (onPlayPause s)).isPlayingReplay = false := by
  have hp : (onPlayPause s).isPlayingReplay = true := by simp [onPlayPause, hplay]
  have hi : (onPlayPause s).replayIndex = 0 := by simpa [onPlayPause] using hidx
  have hl : (onPlayPause s).history.length = n := by simpa [onPlayPause] using hlen
  have h1 := autoplayTicks_advance (n - 1) (onPlayPause s) hp (by rw [hi, hl]; omega)
  have hn1 : n = (n - 1) + 1 := by omega
  have h2 : autoplayTicks n (onPlayPause s)
      = autoplayTick (autoplayTicks (n - 1) (onPlayPause s)) := by
    conv_lhs => rw [hn1]
    exact autoplayTicks_succ (n - 1) (onPlayPause s)
  have hend := autoplayTick_at_end
    { onPlayPause s with replayIndex := (onPlayPause s).replayIndex + ((n - 1 : Nat) : Int) } hp
    (by show (onPlayPause s).replayIndex + ((n - 1 : Nat) : Int)
          ≥ ((onPlayPause s).history.length : Int) - 1
        rw [hi, hl]; omega)
  rw [h2, h1, hend]
  refine ⟨?_, hp, ?_, rfl⟩ <;>
    (show (onPlayPause s).replayIndex + ((n - 1 : Nat) : Int) = (n : Int) - 1
     rw [hi]; omega)

/-- C3 (amended) on the 4-entry history. -/
theorem autoplay_from_start_witness :
    (autoplayTicks (4 - 1) (onPlayPause fourEntryReplay)).replayIndex = ((4 : Nat) : Int) - 1 ∧
    (autoplayTicks (4 - 1) (onPlayPause fourEntryReplay)).isPlayingReplay = true ∧
    (autoplayTicks 4 (onPlayPause fourEntryReplay)).replayIndex = ((4 : Nat) : Int) - 1 ∧
    (autoplayTicks 4 (onPlayPause fourEntryReplay)).isPlayingReplay = false :=
  autoplay_from_start fourEntryReplay 4 (by decide)
    (by simp [fourEntryReplay, gateState, handleSimulateRequest, initialState, recordState])
    rfl rfl

/-! ## C7: the replay cursor stays inside the snapshot sequence -/

theorem reachable_runOps (ops : List Op) (s : State) (h : Reachable s) :
    Reachable (runOps ops s) := by
  induction ops generalizing s with
  | nil => exact h
  | cons op ops ih => exact ih _ (Reachable.step op s h)

theorem handleApprove_replay_fields (clk : Nat → String) (d : Draws) (s : State) :
    (handleApprove clk d s).isReplayMode = s.isReplayMode ∧
    (handleApprove clk d s).replayIndex = s.replayIndex := by
  simp [handleApprove]

theorem handleReject_replay_fields (clk : Nat → String) (s : State) :
    (handleReject clk s).isReplayMode = s.isReplayMode ∧
    (handleReject clk s).replayIndex = s.replayIndex := by
  simp [handleReject]

theorem handleSimulateRequest_isReplayMode (clk : Nat → String) (s : State) :
    (handleSimulateRequest clk s).isReplayMode = s.isReplayMode := by
  unfold handleSimulateRequest
  split <;> rfl

theorem replayOp_keeps_cursor (r : ReplayOp) (s : State)
    (hr : ReplayOp.withinRange r s = true)
    (inv : s.isReplayMode = true → cursorInRange s)
    (h : (r.apply s).isReplayMode = true) : cursorInRange (r.apply s) := by
  cases r with
  | enterReplay =>
    simp only [ReplayOp.apply, startReplay] at h ⊢
    split at h
    · rename_i h0; simp only [h0, if_true]; exact inv h
    · rename_i h0
      simp only [if_neg h0, cursorInRange]
      omega
  | exitReplay => simp [ReplayOp.apply, Synoptic.exitReplay] at h
  | step delta =>
    have hin := inv (by simpa [ReplayOp.apply, onStep] using h)
    simp only [ReplayOp.apply, onStep, cursorInRange] at hin ⊢
    omega
  | scrub target =>
    simp only [ReplayOp.withinRange, decide_eq_true_eq] at hr
    simpa [ReplayOp.apply, onScrub, cursorInRange] using hr
  | togglePlay =>
    exact inv (by simpa [ReplayOp.apply, onPlayPause] using h)
  | tick =>
    simp only [ReplayOp.apply, autoplayTick, replayTick] at h ⊢
    split
    · split
      · rename_i h1 h2
        simp only [h1, h2, if_true] at h
        exact inv h
      · rename_i h1 h2
        simp only [h1, if_true, if_neg h2] at h
        have hin := inv h
        simp only [cursorInRange] at hin ⊢
        omega
    · rename_i h1
      simp only [h1] at h
      exact inv (by simpa using h)

theorem reachableWithinControls_runOps (ops : List Op) (s : State)
    (h : ReachableWithinControls s) (hops : opsWithinControls ops s = true) :
    ReachableWithinControls (runOps ops s) := by
  induction ops generalizing s with
  | nil => exact h
  | cons op ops ih =>
    simp only [opsWithinControls, Bool.and_eq_true] at hops
    exact ih _ (ReachableWithinControls.step op s h hops.1) hops.2

/-- C7, as stated, fails: with `scrub` given any integer the cursor leaves the sequence
(index 999 on 9 snapshots), and so it does when `handleSimulateRequest` runs while replay
mode is on at index 8 (the new run leaves 6 snapshots); both states are reached from the
mounted state by the listed operations and have replay mode on. -/
theorem cursor_out_of_range_reachable :
    Reachable scrubbedFarState ∧ scrubbedFarState.isReplayMode = true ∧
    scrubbedFarState.replayIndex = 999 ∧ scrubbedFarState.history.length = 9 ∧
    ¬ cursorInRange scrubbedFarState ∧
    Reachable rerunInReplayState ∧ rerunInReplayState.isReplayMode = true ∧
    rerunInReplayState.replayIndex = 8 ∧ rerunInReplayState.history.length = 6 ∧
    ¬ cursorInRange rerunInReplayState := by
  have l1 : scrubbedFarState.history.length = 9 := by
    simp [scrubbedFarState, runOps, Op.apply, ReplayOp.apply, onScrub, startReplay,
      handleApprove, handleSimulateRequest, initialState]
  have l2 : rerunInReplayState.history.length = 6 := by
    simp [rerunInReplayState, runOps, Op.apply, ReplayOp.apply, onStep, startReplay,
      handleApprove, handleSimulateRequest, initialState]
  have i1 : scrubbedFarState.replayIndex = 999 := rfl
  have i2 : rerunInReplayState.replayIndex = 8 := by
    simp [rerunInReplayState, runOps, Op.apply, ReplayOp.apply, onStep, startReplay,
      handleApprove, handleSimulateRequest, initialState]
  refine ⟨reachable_runOps _ _ (Reachable.init _), rfl, i1, l1, ?_,
    reachable_runOps _ _ (Reachable.init _), rfl, i2, l2, ?_⟩
  · simp only [cursorInRange, i1, l1]; omega
  · simp only [cursorInRange, i2, l2]; omega

/-- C7 (amended): in every state reached from the mounted state through the operations
(prompt edits, startRun, approve, reject, enterReplay, exitReplay, step, scrub, togglePlay,
autoplay tick), where scrub is handed an index within [0, len-1] as the slider does and
startRun is not issued while replay mode is on as the disabled Execute button ensures,
an active replay mode has 0 <= index <= len(snapshots) - 1. -/
theorem cursor_in_range_within_controls (s : State) (h : ReachableWithinControls s)
    (hr : s.isReplayMode = true) : cursorInRange s := by
  induction h with
  | init clk => simp [initialState] at hr
  | step op s _ hop ih =>
    cases op with
    | setPrompt p => exact ih hr
    | startRun clk =>
      simp only [Op.withinControls, Bool.not_eq_true'] at hop
      simp only [Op.apply, handleSimulateRequest_isReplayMode, hop] at hr
      exact absurd hr (by decide)
    | approve clk d =>
      have hf := handleApprove_replay_fields clk d s
      have hl := handleApprove_history_length clk d s
      simp only [Op.apply] at hr ⊢
      have hin := ih (hf.1 ▸ hr)
      simp only [cursorInRange, hf.2, hl] at hin ⊢
      omega
    | reject clk =>
      have hf := handleReject_replay_fields clk s
      have hl := handleReject_history_length clk s
      simp only [Op.apply] at hr ⊢
      have hin := ih (hf.1 ▸ hr)
      simp only [cursorInRange, hf.2, hl] at hin ⊢
      omega
    | replay r =>
      exact replayOp_keeps_cursor r s (by cases r <;> exact hop) ih hr

/-- C7 (amended) at a state reached within the controls: first run approved, replay
entered, two steps forward; replay mode is on and the index is 2 of 0..8. -/
theorem cursor_in_range_within_controls_witness :
    steppedState.isReplayMode = true ∧ cursorInRange steppedState :=
  ⟨rfl, cursor_in_range_within_controls steppedState
    (reachableWithinControls_runOps
      [.startRun sampleClock, .approve sampleClock sampleDraws, .replay .enterReplay,
        .replay (.step 1), .replay (.step 1)]
      (initialState sampleClock) (ReachableWithinControls.init sampleClock) rfl) rfl⟩

/-! ## C4: the category derivation -/

theorem includes_iff (s needle : List Char) :
    includes s needle = true ↔ ∃ pre post, s = pre ++ needle ++ post := by
  induction s with
  | nil =>
    simp only [includes, List.isPrefixOf_iff_prefix]
    constructor
    · intro h
      exact ⟨[], [], by simp [List.prefix_nil.mp h]⟩
    · rintro ⟨pre, post, h⟩
      have h2 : needle = [] := by
        have := congrArg List.length h
        simp only [List.length_nil, List.length_append] at this
        exact List.length_eq_zero.mp (by omega)
      simp [h2]
  | cons c cs ih =>
    simp only [includes, Bool.or_eq_true, List.isPrefixOf_iff_prefix, ih]
    constructor
    · rintro (⟨post, h⟩ | ⟨pre, post, h⟩)
      · exact ⟨[], post, by simp [h]⟩
      · exact ⟨c :: pre, post, by simp [h]⟩
    · rintro ⟨pre, post, h⟩
      cases pre with
      | nil => exact Or.inl ⟨post, by simpa using h.symm⟩
      | cons p pre =>
        simp only [List.cons_append, List.cons.injEq] at h
        exact Or.inr ⟨pre, post, h.2⟩

theorem toLowerCase_append (a b : List Char) :
    toLowerCase (a ++ b) = toLowerCase a ++ toLowerCase b := by
  simp [toLowerCase, List.flatMap_append]

theorem lowerChar_of_toLower (c k : Char) (hk : k.isLower = true) (h : c.toLower = k) :
    lowerChar c = [k] := by
  unfold lowerChar
  by_cases hu : c.isUpper = true
  · simp [hu, h]
  · have hc : c = k := by
      rw [← h]
      unfold Char.toLower
      simp only [Char.isUpper, Bool.and_eq_true, decide_eq_true_eq, ge_iff_le] at hu
      have hn : ¬ (c.toNat ≥ 65 ∧ c.toNat ≤ 90) := fun hh => hu ⟨hh.1, hh.2⟩
      simp only [hn, if_false]
    subst hc
    simp only [Char.isLower, Bool.and_eq_true, decide_eq_true_eq, ge_iff_le] at hk
    have h2 : c.val.toNat ≤ 122 := hk.2
    have n1 : ¬ c.val = 0x130 := by
      intro e; rw [e] at h2; exact absurd h2 (by decide)
    have n2 : ¬ c.val = 0x212A := by
      intro e; rw [e] at h2; exact absurd h2 (by decide)
    simp [hu, n1, n2]

theorem toLowerCase_of_map_toLower (w k : List Char) (hk : ∀ c ∈ k, c.isLower = true)
    (h : w.map Char.toLower = k) : toLowerCase w = k := by
  induction w generalizing k with
  | nil => simpa [toLowerCase] using h
  | cons c cs ih =>
    cases k with
    | nil => simp at h
    | cons k0 ks =>
      simp only [List.map_cons, List.cons.injEq] at h
      have h0 := lowerChar_of_toLower c k0 (hk k0 (by simp)) h.1
      have h1 := ih ks (fun x hx => hk x (by simp [hx])) h.2
      simp only [toLowerCase, List.flatMap_cons] at h1 ⊢
      rw [h0, h1]
      rfl

/-- C4: for every prompt the category of the run controller is the one the ordered rule
list gives on the lower-cased prompt (first matching rule wins, General without a match);
and a prompt containing "tech" in any letter case yields Technology whatever else it
contains. -/
theorem deriveCategory_first_matching_rule (prompt : String) :
    deriveCategory prompt = firstMatchingCategory (toLowerCase prompt.toList) ∧
    (∀ pre w post : List Char, prompt.toList = pre ++ w ++ post →
      w.map Char.toLower = "tech".toList → deriveCategory prompt = "Technology") := by
  constructor
  · simp only [deriveCategory, firstMatchingCategory, categoryRules, List.find?, List.any,
      Bool.or_false]
    cases includes (toLowerCase prompt.toList) "tech".toList <;>
    cases includes (toLowerCase prompt.toList) "business".toList <;>
    cases includes (toLowerCase prompt.toList) "finance".toList <;>
    cases includes (toLowerCase prompt.toList) "sport".toList <;>
    cases includes (toLowerCase prompt.toList) "health".toList <;> rfl
  · intro pre w post hp hw
    have hl : toLowerCase w = "tech".toList :=
      toLowerCase_of_map_toLower w _ (by decide) hw
    have hinc : includes (toLowerCase prompt.toList) "tech".toList = true := by
      rw [includes_iff]
      exact ⟨toLowerCase pre, toLowerCase post, by
        rw [hp, toLowerCase_append, toLowerCase_append, hl]⟩
    simp only [deriveCategory, hinc, if_true]

/-- C4 on a prompt that spells the keyword `TeCh` and also holds the keywords of all later
rules. -/
theorem deriveCategory_first_matching_rule_witness :
    deriveCategory "Finance, sport and health in TeCh" = "Technology" :=
  (deriveCategory_first_matching_rule "Finance, sport and health in TeCh").2
    "Finance, sport and health in ".toList "TeCh".toList [] (by decide) (by decide)

/-! ## C5: the location pattern -/

theorem stripCI_eq_some (kw s r : List Char) :
    stripCI kw s = some r ↔ ∃ w, s = w ++ r ∧ w.map Char.toLower = kw := by
  induction kw generalizing s with
  | nil =>
    simp only [stripCI, Option.some.injEq]
    constructor
    · intro h; exact ⟨[], by simp [h], rfl⟩
    · rintro ⟨w, h, hw⟩
      simp only [List.map_eq_nil_iff] at hw
      simp [h, hw]
  | cons k ks ih =>
    cases s with
    | nil =>
      simp only [stripCI, false_iff, reduceCtorEq]
      rintro ⟨w, h, hw⟩
      have : w = [] := by
        cases w with
        | nil => rfl
        | cons a w => simp at h
      simp [this] at hw
    | cons c cs =>
      simp only [stripCI]
      split
      · rename_i hc
        rw [ih]
        constructor
        · rintro ⟨w, h, hw⟩
          exact ⟨c :: w, by simp [h], by simp [hc, hw]⟩
        · rintro ⟨w, h, hw⟩
          cases w with
          | nil => simp at hw
          | cons a w =>
            simp only [List.cons_append, List.cons.injEq, List.map_cons] at h hw
            exact ⟨w, h.2, hw.2⟩
      · rename_i hc
        simp only [false_iff, reduceCtorEq]
        rintro ⟨w, h, hw⟩
        cases w with
        | nil => simp at hw
        | cons a w =>
          simp only [List.cons_append, List.cons.injEq, List.map_cons] at h hw
          exact hc (h.1 ▸ hw.1)

theorem spacesThen_eq_none {α : Type} (k : List Char → Option α) (s : List Char) :
    spacesThen k s = none ↔ ∀ ws r, s = ws ++ r → IsSpaces ws → k r = none := by
  induction s with
  | nil =>
    simp only [spacesThen, true_iff]
    intro ws r h hws
    have : ws = [] := by
      cases ws with
      | nil => rfl
      | cons a w => simp at h
    exact absurd this hws.1
  | cons c cs ih =>
    simp only [spacesThen]
    split
    · rename_i hc
      rw [Option.orElse_eq_none', ih]
      constructor
      · rintro ⟨h1, h2⟩ ws r h hws
        cases ws with
        | nil => exact absurd rfl hws.1
        | cons a w =>
          simp only [List.cons_append, List.cons.injEq] at h
          by_cases hw : w = []
          · subst hw; simp only [List.nil_append] at h; rw [← h.2]; exact h2
          · exact h1 w r h.2 ⟨hw, fun x hx => hws.2 x (by simp [hx])⟩
      · intro h
        constructor
        · intro ws r hcs hws
          exact h (c :: ws) r (by simp [hcs]) ⟨by simp, by
            intro x hx
            simp only [List.mem_cons] at hx
            rcases hx with hx | hx
            · rw [hx]; exact hc
            · exact hws.2 x hx⟩
        · exact h [c] cs rfl ⟨by simp, by simpa using hc⟩
    · rename_i hc
      simp only [true_iff]
      intro ws r h hws
      cases ws with
      | nil => exact absurd rfl hws.1
      | cons a w =>
        simp only [List.cons_append, List.cons.injEq] at h
        exact absurd (hws.2 a (by simp)) (by rw [← h.1]; exact hc)
theorem spacesThen_eq_some {α : Type} (k : List Char → Option α) (s : List Char) (v : α) :
    spacesThen k s = some v ↔ ∃ ws r, s = ws ++ r ∧ IsSpaces ws ∧ k r = some v ∧
      ∀ ws2 r2, s = ws2 ++ r2 → IsSpaces ws2 → ws.length < ws2.length → k r2 = none := by
  induction s with
  | nil =>
    simp only [spacesThen, false_iff, reduceCtorEq]
    rintro ⟨ws, r, h, hws, -⟩
    cases ws with
    | nil => exact hws.1 rfl
    | cons a w => simp at h
  | cons c cs ih =>
    simp only [spacesThen]
    split
    · rename_i hc
      rw [Option.orElse_eq_some', ih, spacesThen_eq_none]
      constructor
      · rintro (⟨ws, r, h, hws, hk, hmax⟩ | ⟨hnone, hk⟩)
        · refine ⟨c :: ws, r, by simp [h], ⟨by simp, ?_⟩, hk, ?_⟩
          · intro x hx
            simp only [List.mem_cons] at hx
            rcases hx with hx | hx
            · rw [hx]; exact hc
            · exact hws.2 x hx
          · intro ws2 r2 h2 hws2 hlen
            cases ws2 with
            | nil => exact absurd rfl hws2.1
            | cons a w2 =>
              simp only [List.cons_append, List.cons.injEq] at h2
              simp only [List.length_cons, Nat.add_lt_add_iff_right] at hlen
              exact hmax w2 r2 h2.2
                ⟨by intro e; rw [e] at hlen; simp at hlen,
                  fun x hx => hws2.2 x (by simp [hx])⟩ hlen
        · refine ⟨[c], cs, rfl, ⟨by simp, by simpa using hc⟩, hk, ?_⟩
          intro ws2 r2 h2 hws2 hlen
          cases ws2 with
          | nil => exact absurd rfl hws2.1
          | cons a w2 =>
            simp only [List.cons_append, List.cons.injEq] at h2
            simp only [List.length_cons, List.length_nil, Nat.zero_add,
              Nat.lt_add_left_iff_pos] at hlen
            exact hnone w2 r2 h2.2
              ⟨by intro e; rw [e] at hlen; simp at hlen, fun x hx => hws2.2 x (by simp [hx])⟩
      · rintro ⟨ws, r, h, hws, hk, hmax⟩
        cases ws with
        | nil => exact absurd rfl hws.1
        | cons a w =>
          simp only [List.cons_append, List.cons.injEq] at h
          have hext : ∀ ws2 : List Char, IsSpaces ws2 → IsSpaces (c :: ws2) := by
            intro ws2 hws2
            refine ⟨by simp, ?_⟩
            intro x hx
            simp only [List.mem_cons] at hx
            rcases hx with hx | hx
            · rw [hx]; exact hc
            · exact hws2.2 x hx
          by_cases hw : w = []
          · subst hw
            simp only [List.nil_append] at h
            right
            refine ⟨?_, by rw [h.2]; exact hk⟩
            intro ws2 r2 h2 hws2
            refine hmax (c :: ws2) r2 (by simp [h2]) (hext ws2 hws2) ?_
            have : 0 < ws2.length := List.length_pos.mpr hws2.1
            simp only [List.length_cons, List.length_nil]
            omega
          · left
            refine ⟨w, r, h.2, ⟨hw, fun x hx => hws.2 x (by simp [hx])⟩, hk, ?_⟩
            intro ws2 r2 h2 hws2 hlen
            exact hmax (c :: ws2) r2 (by simp [h2]) (hext ws2 hws2) (by simpa using hlen)
    · rename_i hc
      simp only [false_iff, reduceCtorEq]
      rintro ⟨ws, r, h, hws, -⟩
      cases ws with
      | nil => exact hws.1 rfl
      | cons a w =>
        simp only [List.cons_append, List.cons.injEq] at h
        exact hc (by rw [h.1]; exact hws.2 a (by simp))

theorem classThen_eq_none {α : Type} (k : List Char → List Char → Option α)
    (acc s : List Char) :
    classThen k acc s = none ↔ ∀ x r, s = x ++ r → IsRun x → k (acc ++ x) r = none := by
  induction s generalizing acc with
  | nil =>
    simp only [classThen, true_iff]
    intro x r h hx
    cases x with
    | nil => exact absurd rfl hx.1
    | cons a w => simp at h
  | cons c cs ih =>
    simp only [classThen]
    split
    · rename_i hc
      rw [Option.orElse_eq_none', ih]
      constructor
      · rintro ⟨h1, h2⟩ x r h hx
        cases x with
        | nil => exact absurd rfl hx.1
        | cons a w =>
          simp only [List.cons_append, List.cons.injEq] at h
          by_cases hw : w = []
          · subst hw; simp only [List.nil_append] at h; rw [← h.1, ← h.2]; exact h1
          · have := h2 w r h.2 ⟨hw, fun y hy => hx.2 y (by simp [hy])⟩
            rw [← h.1]
            simpa using this
      · intro h
        constructor
        · exact h [c] cs rfl ⟨by simp, by simpa using hc⟩
        · intro x r hcs hx
          have := h (c :: x) r (by simp [hcs]) ⟨by simp, by
            intro y hy
            simp only [List.mem_cons] at hy
            rcases hy with hy | hy
            · rw [hy]; exact hc
            · exact hx.2 y hy⟩
          simpa using this
    · rename_i hc
      simp only [true_iff]
      intro x r h hx
      cases x with
      | nil => exact absurd rfl hx.1
      | cons a w =>
        simp only [List.cons_append, List.cons.injEq] at h
        exact absurd (hx.2 a (by simp)) (by rw [← h.1]; exact hc)

theorem classThen_eq_some {α : Type} (k : List Char → List Char → Option α)
    (acc s : List Char) (v : α) :
    classThen k acc s = some v ↔ ∃ x r, s = x ++ r ∧ IsRun x ∧ k (acc ++ x) r = some v ∧
      ∀ x2 r2, s = x2 ++ r2 → IsRun x2 → x2.length < x.length → k (acc ++ x2) r2 = none := by
  induction s generalizing acc with
  | nil =>
    simp only [classThen, false_iff, reduceCtorEq]
    rintro ⟨x, r, h, hx, -⟩
    cases x with
    | nil => exact hx.1 rfl
    | cons a w => simp at h
  | cons c cs ih =>
    simp only [classThen]
    split
    · rename_i hc
      have hext : ∀ x2 : List Char, IsRun x2 → IsRun (c :: x2) := by
        intro x2 hx2
        refine ⟨by simp, ?_⟩
        intro y hy
        simp only [List.mem_cons] at hy
        rcases hy with hy | hy
        · rw [hy]; exact hc
        · exact hx2.2 y hy
      rw [Option.orElse_eq_some', ih]
      constructor
      · rintro (hk | ⟨hnone, x, r, h, hx, hk, hmin⟩)
        · refine ⟨[c], cs, rfl, ⟨by simp, by simpa using hc⟩, hk, ?_⟩
          intro x2 r2 _ hx2 hlen
          have : 0 < x2.length := List.length_pos.mpr hx2.1
          simp only [List.length_cons, List.length_nil] at hlen
          omega
        · refine ⟨c :: x, r, by simp [h], hext x hx, by simpa using hk, ?_⟩
          intro x2 r2 h2 hx2 hlen
          cases x2 with
          | nil => exact absurd rfl hx2.1
          | cons a w2 =>
            simp only [List.cons_append, List.cons.injEq] at h2
            simp only [List.length_cons, Nat.add_lt_add_iff_right] at hlen
            by_cases hw : w2 = []
            · subst hw; simp only [List.nil_append] at h2; rw [← h2.1, ← h2.2]; exact hnone
            · have := hmin w2 r2 h2.2 ⟨hw, fun y hy => hx2.2 y (by simp [hy])⟩ hlen
              rw [← h2.1]
              simpa using this
      · rintro ⟨x, r, h, hx, hk, hmin⟩
        cases x with
        | nil => exact absurd rfl hx.1
        | cons a w =>
          simp only [List.cons_append, List.cons.injEq] at h
          by_cases hw : w = []
          · subst hw
            simp only [List.nil_append] at h
            left
            rw [h.1, h.2]; exact hk
          · right
            have hwpos : 0 < w.length := List.length_pos.mpr hw
            refine ⟨?_, w, r, h.2, ⟨hw, fun y hy => hx.2 y (by simp [hy])⟩, ?_, ?_⟩
            · exact hmin [c] cs rfl ⟨by simp, by simpa using hc⟩
                (by simp only [List.length_cons, List.length_nil]; omega)
            · rw [h.1]; simpa using hk
            · intro x2 r2 h2 hx2 hlen
              have := hmin (c :: x2) r2 (by simp [h2]) (hext x2 hx2) (by simpa using hlen)
              simpa using this
    · rename_i hc
      simp only [false_iff, reduceCtorEq]
      rintro ⟨x, r, h, hx, -⟩
      cases x with
      | nil => exact hx.1 rfl
      | cons a w =>
        simp only [List.cons_append, List.cons.injEq] at h
        exact hc (by rw [h.1]; exact hx.2 a (by simp))
theorem spacesThen_keyword_eq_none (kw cap rest : List Char) :
    spacesThen (fun r => (stripCI kw r).map fun _ => cap) rest = none ↔
      ¬ ∃ ws w post, rest = ws ++ (w ++ post) ∧ IsSpaces ws ∧ w.map Char.toLower = kw := by
  rw [spacesThen_eq_none]
  constructor
  · rintro h ⟨ws, w, post, hrest, hws, hw⟩
    have h1 := h ws (w ++ post) hrest hws
    have h2 : stripCI kw (w ++ post) = some post := (stripCI_eq_some kw _ post).mpr ⟨w, rfl, hw⟩
    simp [h2] at h1
  · intro h ws r hrest hws
    cases hs : stripCI kw r with
    | none => rfl
    | some post =>
      obtain ⟨w, hr, hw⟩ := (stripCI_eq_some kw r post).mp hs
      exact absurd ⟨ws, w, post, by rw [hrest, hr], hws, hw⟩ h

theorem spacesThen_keyword_eq_some (kw cap rest v : List Char)
    (h : spacesThen (fun r => (stripCI kw r).map fun _ => cap) rest = some v) : v = cap := by
  obtain ⟨ws, r, -, -, hk, -⟩ := (spacesThen_eq_some _ rest v).mp h
  cases hs : stripCI kw r with
  | none => simp [hs] at hk
  | some post => simpa [hs] using hk.symm

theorem terminator_eq_none (cap rest : List Char) :
    terminator cap rest = none ↔ ¬ Closes rest := by
  unfold terminator Closes
  rw [Option.orElse_eq_none', Option.orElse_eq_none', spacesThen_keyword_eq_none,
    spacesThen_keyword_eq_none]
  constructor
  · rintro ⟨⟨h1, h2⟩, h3⟩ (⟨ws, w, post, hrest, hws, hw | hw⟩ | hnil)
    · exact h1 ⟨ws, w, post, hrest, hws, hw⟩
    · exact h2 ⟨ws, w, post, hrest, hws, hw⟩
    · simp [hnil] at h3
  · intro h
    refine ⟨⟨?_, ?_⟩, ?_⟩
    · rintro ⟨ws, w, post, hrest, hws, hw⟩
      exact h (Or.inl ⟨ws, w, post, hrest, hws, Or.inl hw⟩)
    · rintro ⟨ws, w, post, hrest, hws, hw⟩
      exact h (Or.inl ⟨ws, w, post, hrest, hws, Or.inr hw⟩)
    · have : rest ≠ [] := fun e => h (Or.inr e)
      simp [this]

theorem terminator_eq_some (cap rest v : List Char) :
    terminator cap rest = some v ↔ v = cap ∧ Closes rest := by
  constructor
  · intro h
    have hc : Closes rest := by
      by_contra hn
      rw [(terminator_eq_none cap rest).mpr hn] at h
      exact absurd h (by simp)
    refine ⟨?_, hc⟩
    unfold terminator at h
    rw [Option.orElse_eq_some', Option.orElse_eq_some'] at h
    rcases h with (h | ⟨-, h⟩) | ⟨-, h⟩
    · exact spacesThen_keyword_eq_some _ _ _ _ h
    · exact spacesThen_keyword_eq_some _ _ _ _ h
    · split at h
      · simpa using h.symm
      · exact absurd h (by simp)
  · rintro ⟨hv, hc⟩
    cases ht : terminator cap rest with
    | none => exact absurd hc ((terminator_eq_none cap rest).mp ht)
    | some v2 =>
      have : v2 = cap := by
        unfold terminator at ht
        rw [Option.orElse_eq_some', Option.orElse_eq_some'] at ht
        rcases ht with (h | ⟨-, h⟩) | ⟨-, h⟩
        · exact spacesThen_keyword_eq_some _ _ _ _ h
        · exact spacesThen_keyword_eq_some _ _ _ _ h
        · split at h
          · simpa using h.symm
          · exact absurd h (by simp)
      rw [this, hv]

theorem capture_eq_none (r : List Char) :
    classThen terminator [] r = none ↔ ∀ x rest, r = x ++ rest → IsRun x → ¬ Closes rest := by
  rw [classThen_eq_none]
  constructor
  · intro h x rest hr hx
    exact (terminator_eq_none _ rest).mp (h x rest hr hx)
  · intro h x rest hr hx
    exact (terminator_eq_none _ rest).mpr (h x rest hr hx)

theorem capture_eq_some (r x : List Char) :
    classThen terminator [] r = some x ↔ ∃ rest, r = x ++ rest ∧ IsRun x ∧ Closes rest ∧
      ∀ x2 rest2, r = x2 ++ rest2 → IsRun x2 → x2.length < x.length → ¬ Closes rest2 := by
  rw [classThen_eq_some]
  constructor
  · rintro ⟨x1, rest, hr, hx1, hk, hmin⟩
    obtain ⟨hv, hc⟩ := (terminator_eq_some _ rest x).mp hk
    simp only [List.nil_append] at hv
    subst hv
    exact ⟨rest, hr, hx1, hc, fun x2 rest2 h2 hx2 hlen =>
      (terminator_eq_none _ rest2).mp (hmin x2 rest2 h2 hx2 hlen)⟩
  · rintro ⟨rest, hr, hx, hc, hmin⟩
    exact ⟨x, rest, hr, hx, (terminator_eq_some _ rest x).mpr ⟨by simp, hc⟩,
      fun x2 rest2 h2 hx2 hlen => (terminator_eq_none _ rest2).mpr (hmin x2 rest2 h2 hx2 hlen)⟩

theorem run_eq_none (r : List Char) :
    spacesThen (classThen terminator []) r = none ↔ ∀ ws x, ¬ RunMatch r ws x := by
  rw [spacesThen_eq_none]
  constructor
  · rintro h ws x ⟨rest, hr, hws, hx, hc⟩
    exact (capture_eq_none _).mp (h ws (x ++ rest) hr hws) x rest rfl hx hc
  · intro h ws r1 hr hws
    rw [capture_eq_none]
    intro x rest hr1 hx hc
    exact h ws x ⟨rest, by rw [hr, hr1], hws, hx, hc⟩

theorem run_eq_some (r x : List Char) :
    spacesThen (classThen terminator []) r = some x ↔ ∃ ws, RunMatch r ws x ∧
      (∀ ws2 x2, RunMatch r ws2 x2 → ws2.length ≤ ws.length) ∧
      (∀ x2, RunMatch r ws x2 → x.length ≤ x2.length) := by
  rw [spacesThen_eq_some]
  constructor
  · rintro ⟨ws, r1, hr, hws, hk, hmax⟩
    obtain ⟨rest, hr1, hx, hc, hmin⟩ := (capture_eq_some r1 x).mp hk
    refine ⟨ws, ⟨rest, by rw [hr, hr1], hws, hx, hc⟩, ?_, ?_⟩
    · rintro ws2 x2 ⟨rest2, hr2, hws2, hx2, hc2⟩
      by_contra hlen
      have := hmax ws2 (x2 ++ rest2) hr2 hws2 (by omega)
      exact (capture_eq_none _).mp this x2 rest2 rfl hx2 hc2
    · rintro x2 ⟨rest2, hr2, -, hx2, hc2⟩
      by_contra hlen
      have e : r1 = x2 ++ rest2 := by
        rw [hr] at hr2
        exact List.append_cancel_left hr2
      exact hmin x2 rest2 e hx2 (by omega) hc2
  · rintro ⟨ws, ⟨rest, hr, hws, hx, hc⟩, hmax, hmin⟩
    refine ⟨ws, x ++ rest, hr, hws, ?_, ?_⟩
    · rw [capture_eq_some]
      refine ⟨rest, rfl, hx, hc, ?_⟩
      intro x2 rest2 h2 hx2 hlen hc2
      have := hmin x2 ⟨rest2, by rw [hr, h2], hws, hx2, hc2⟩
      omega
    · intro ws2 r2 h2 hws2 hlen
      rw [capture_eq_none]
      intro x2 rest2 hr2 hx2 hc2
      have := hmax ws2 x2 ⟨rest2, by rw [h2, hr2], hws2, hx2, hc2⟩
      omega
theorem keyword_unique (kw kw2 r r2 : List Char) (h : kw ++ r = kw2 ++ r2)
    (hk : IsKeyword kw) (hk2 : IsKeyword kw2) : kw = kw2 ∧ r = r2 := by
  have len : ∀ (w k : List Char), w.map Char.toLower = k → w.length = k.length := by
    intro w k e; rw [← e, List.length_map]
  have head : ∀ (w w2 : List Char) (a b : Char) (t t2 : List Char),
      w.map Char.toLower = a :: t → w2.map Char.toLower = b :: t2 → w ++ r = w2 ++ r2 →
      a = b := by
    intro w w2 a b t t2 e e2 hh
    cases w with
    | nil => simp at e
    | cons c w =>
      cases w2 with
      | nil => simp at e2
      | cons c2 w2 =>
        simp only [List.map_cons, List.cons.injEq, List.cons_append] at e e2 hh
        rw [← e.1, ← e2.1, hh.1]
  rcases hk with hk | hk <;> rcases hk2 with hk2 | hk2
  · exact List.append_inj h (by rw [len _ _ hk, len _ _ hk2])
  · exact absurd (head kw kw2 _ _ _ _ hk hk2 h) (by decide)
  · exact absurd (head kw kw2 _ _ _ _ hk hk2 h) (by decide)
  · exact List.append_inj h (by rw [len _ _ hk, len _ _ hk2])

theorem matchHere_eq_none (s : List Char) :
    matchHere s = none ↔ ∀ ws x, ¬ HereMatch s ws x := by
  unfold matchHere
  rw [Option.orElse_eq_none']
  constructor
  · rintro ⟨h1, h2⟩ ws x ⟨kw, r, hs, hk, hrun⟩
    have hF : spacesThen (classThen terminator []) r ≠ none :=
      fun e => (run_eq_none r).mp e ws x hrun
    rcases hk with hk | hk
    · have e := (stripCI_eq_some "in".toList s r).mpr ⟨kw, hs, hk⟩
      rw [e] at h1
      exact hF h1
    · have e := (stripCI_eq_some "for".toList s r).mpr ⟨kw, hs, hk⟩
      rw [e] at h2
      exact hF h2
  · intro h
    constructor
    · cases e : stripCI "in".toList s with
      | none => rfl
      | some r =>
        obtain ⟨kw, hs, hk⟩ := (stripCI_eq_some _ s r).mp e
        exact (run_eq_none r).mpr fun ws x hrun => h ws x ⟨kw, r, hs, Or.inl hk, hrun⟩
    · cases e : stripCI "for".toList s with
      | none => rfl
      | some r =>
        obtain ⟨kw, hs, hk⟩ := (stripCI_eq_some _ s r).mp e
        exact (run_eq_none r).mpr fun ws x hrun => h ws x ⟨kw, r, hs, Or.inr hk, hrun⟩

theorem matchHere_of_keyword (s kw r : List Char) (hs : s = kw ++ r) (hk : IsKeyword kw) :
    matchHere s = spacesThen (classThen terminator []) r := by
  unfold matchHere
  rcases hk with hk | hk
  · have e := (stripCI_eq_some "in".toList s r).mpr ⟨kw, hs, hk⟩
    have e2 : stripCI "for".toList s = none := by
      cases e3 : stripCI "for".toList s with
      | none => rfl
      | some r3 =>
        obtain ⟨kw3, hs3, hk3⟩ := (stripCI_eq_some _ s r3).mp e3
        have := keyword_unique kw kw3 r r3 (by rw [← hs, ← hs3]) (Or.inl hk) (Or.inr hk3)
        rw [this.1] at hk
        rw [hk] at hk3
        exact absurd hk3 (by decide)
    rw [e, e2]
    exact Option.orElse_none' _
  · have e := (stripCI_eq_some "for".toList s r).mpr ⟨kw, hs, hk⟩
    have e2 : stripCI "in".toList s = none := by
      cases e3 : stripCI "in".toList s with
      | none => rfl
      | some r3 =>
        obtain ⟨kw3, hs3, hk3⟩ := (stripCI_eq_some _ s r3).mp e3
        have := keyword_unique kw kw3 r r3 (by rw [← hs, ← hs3]) (Or.inr hk) (Or.inl hk3)
        rw [this.1] at hk
        rw [hk] at hk3
        exact absurd hk3 (by decide)
    rw [e, e2]
    rfl

theorem matchHere_eq_some (s x : List Char) :
    matchHere s = some x ↔ ∃ ws, HereMatch s ws x ∧
      (∀ ws2 x2, HereMatch s ws2 x2 → ws2.length ≤ ws.length) ∧
      (∀ x2, HereMatch s ws x2 → x.length ≤ x2.length) := by
  constructor
  · intro h
    have hex : ∃ ws0 x0, HereMatch s ws0 x0 := by
      by_contra hn
      rw [(matchHere_eq_none s).mpr fun ws x hm => hn ⟨ws, x, hm⟩] at h
      exact absurd h (by simp)
    obtain ⟨ws0, x0, kw, r, hs, hk, -⟩ := hex
    rw [matchHere_of_keyword s kw r hs hk, run_eq_some] at h
    obtain ⟨ws, hrun, hmax, hmin⟩ := h
    refine ⟨ws, ⟨kw, r, hs, hk, hrun⟩, ?_, ?_⟩
    · rintro ws2 x2 ⟨kw2, r2, hs2, hk2, hrun2⟩
      have := keyword_unique kw kw2 r r2 (by rw [← hs, ← hs2]) hk hk2
      exact hmax ws2 x2 (this.2 ▸ hrun2)
    · rintro x2 ⟨kw2, r2, hs2, hk2, hrun2⟩
      have := keyword_unique kw kw2 r r2 (by rw [← hs, ← hs2]) hk hk2
      exact hmin x2 (this.2 ▸ hrun2)
  · rintro ⟨ws, ⟨kw, r, hs, hk, hrun⟩, hmax, hmin⟩
    rw [matchHere_of_keyword s kw r hs hk, run_eq_some]
    exact ⟨ws, hrun, fun ws2 x2 h2 => hmax ws2 x2 ⟨kw, r, hs, hk, h2⟩,
      fun x2 h2 => hmin x2 ⟨kw, r, hs, hk, h2⟩⟩

theorem locationMatch_eq_none (p : List Char) :
    locationMatch p = none ↔ ∀ pre s, p = pre ++ s → matchHere s = none := by
  induction p with
  | nil =>
    simp only [locationMatch]
    constructor
    · intro h pre s hp
      have : s = [] := by
        cases pre with
        | nil => simpa using hp.symm
        | cons a w => simp at hp
      rw [this]; exact h
    · intro h; exact h [] [] rfl
  | cons c cs ih =>
    simp only [locationMatch]
    rw [Option.orElse_eq_none', ih]
    constructor
    · rintro ⟨h1, h2⟩ pre s hp
      cases pre with
      | nil => simp only [List.nil_append] at hp; rw [← hp]; exact h1
      | cons a w =>
        simp only [List.cons_append, List.cons.injEq] at hp
        exact h2 w s hp.2
    · intro h
      exact ⟨h [] (c :: cs) rfl, fun pre s hp => h (c :: pre) s (by simp [hp])⟩

theorem locationMatch_eq_some (p x : List Char) :
    locationMatch p = some x ↔ ∃ pre s, p = pre ++ s ∧ matchHere s = some x ∧
      ∀ pre2 s2, p = pre2 ++ s2 → pre2.length < pre.length → matchHere s2 = none := by
  induction p with
  | nil =>
    simp only [locationMatch]
    constructor
    · intro h
      exact ⟨[], [], rfl, h, fun pre2 s2 _ hlen => by simp at hlen⟩
    · rintro ⟨pre, s, hp, h, -⟩
      have : s = [] := by
        cases pre with
        | nil => simpa using hp.symm
        | cons a w => simp at hp
      rw [← this]; exact h
  | cons c cs ih =>
    simp only [locationMatch]
    rw [Option.orElse_eq_some', ih]
    constructor
    · rintro (h | ⟨hnone, pre, s, hp, h, hmin⟩)
      · exact ⟨[], c :: cs, rfl, h, fun pre2 s2 _ hlen => by simp at hlen⟩
      · refine ⟨c :: pre, s, by simp [hp], h, ?_⟩
        intro pre2 s2 hp2 hlen
        cases pre2 with
        | nil => simp only [List.nil_append] at hp2; rw [← hp2]; exact hnone
        | cons a w =>
          simp only [List.cons_append, List.cons.injEq] at hp2
          exact hmin w s2 hp2.2 (by simpa using hlen)
    · rintro ⟨pre, s, hp, h, hmin⟩
      cases pre with
      | nil =>
        simp only [List.nil_append] at hp
        left; rw [hp]; exact h
      | cons a w =>
        simp only [List.cons_append, List.cons.injEq] at hp
        right
        refine ⟨hmin [] (c :: cs) rfl (by simp), w, s, hp.2, h, ?_⟩
        intro pre2 s2 hp2 hlen
        exact hmin (c :: pre2) s2 (by simp [hp2]) (by simpa using hlen)

theorem locationMatch_none_iff (p : List Char) :
    locationMatch p = none ↔ ¬ ∃ pre ws x, PatternMatch p pre ws x := by
  rw [locationMatch_eq_none]
  constructor
  · rintro h ⟨pre, ws, x, s, hp, hm⟩
    exact (matchHere_eq_none s).mp (h pre s hp) ws x hm
  · intro h pre s hp
    rw [matchHere_eq_none]
    intro ws x hm
    exact h ⟨pre, ws, x, s, hp, hm⟩

theorem locationMatch_some_iff (p x : List Char) :
    locationMatch p = some x ↔ GreedyLazyCapture p x := by
  rw [locationMatch_eq_some]
  constructor
  · rintro ⟨pre, s, hp, h, hleft⟩
    obtain ⟨ws, hm, hmax, hmin⟩ := (matchHere_eq_some s x).mp h
    refine ⟨pre, ws, ⟨s, hp, hm⟩, ?_, ?_, ?_⟩
    · rintro pre2 ws2 x2 ⟨s2, hp2, hm2⟩
      by_contra hlen
      exact (matchHere_eq_none s2).mp (hleft pre2 s2 hp2 (by omega)) ws2 x2 hm2
    · rintro ws2 x2 ⟨s2, hp2, hm2⟩
      have e : s = s2 := List.append_cancel_left (hp ▸ hp2)
      exact hmax ws2 x2 (e ▸ hm2)
    · rintro x2 ⟨s2, hp2, hm2⟩
      have e : s = s2 := List.append_cancel_left (hp ▸ hp2)
      exact hmin x2 (e ▸ hm2)
  · rintro ⟨pre, ws, ⟨s, hp, hm⟩, hleft, hmax, hmin⟩
    refine ⟨pre, s, hp, ?_, ?_⟩
    · rw [matchHere_eq_some]
      exact ⟨ws, hm, fun ws2 x2 h2 => hmax ws2 x2 ⟨s, hp, h2⟩,
        fun x2 h2 => hmin x2 ⟨s, hp, h2⟩⟩
    · intro pre2 s2 hp2 hlen
      rw [matchHere_eq_none]
      intro ws2 x2 hm2
      have := hleft pre2 ws2 x2 ⟨s2, hp2, hm2⟩
      omega
/-- C5, as stated, fails: in `for   news` (three blanks) the match at position 0 is the
leftmost one and the shortest run that lets the pattern match there is a single blank
(keyword, one blank, the blank, then blank and `news`), whose trimmed form is empty; the
derived location is `news`. -/
theorem location_is_not_shortest_capture :
    ShortestCaptureOfLeftmost "for   news".toList [' '] ∧
    String.mk (trim [' ']) = "" ∧
    deriveLocation "for   news" = "news" := by
  refine ⟨⟨[], [' '], ?_, ?_, ?_⟩, by decide, by decide⟩
  · refine ⟨"for   news".toList, rfl, "for".toList, "   news".toList, rfl, Or.inr rfl,
      " news".toList, rfl, ⟨by simp, by decide⟩, ⟨by simp, by decide⟩, ?_⟩
    exact Or.inl ⟨[' '], "news".toList, [], rfl, ⟨by simp, by decide⟩, Or.inr rfl⟩
  · intro pre2 ws2 x2 _
    exact Nat.zero_le _
  · rintro ws2 x2 ⟨s, -, kw, r, -, -, rest, -, -, hx, -⟩
    exact List.length_pos.mpr hx.1

/-- C5 (amended): for every prompt the derived location is the trimmed capture X of the
leftmost match of the pattern (keyword `in` or `for` in either case, white space, X,
closing), where the white-space run after the keyword is the longest one for which the
pattern matches there and X is the shortest run of ASCII letters and white space that lets
the pattern match after that run; such an X exists whenever the pattern matches somewhere;
when it matches nowhere the location is `Mumbai`; and the default prompt yields `Mumbai`. -/
theorem deriveLocation_greedy_lazy_capture (prompt : String) :
    (∀ x, GreedyLazyCapture prompt.toList x → deriveLocation prompt = String.mk (trim x)) ∧
    ((∃ pre ws x, PatternMatch prompt.toList pre ws x) →
      ∃ x, GreedyLazyCapture prompt.toList x) ∧
    ((¬ ∃ pre ws x, PatternMatch prompt.toList pre ws x) → deriveLocation prompt = "Mumbai") ∧
    deriveLocation "Morning briefing for Mumbai with tech news" = "Mumbai" := by
  refine ⟨?_, ?_, ?_, by decide⟩
  · intro x hx
    have h := (locationMatch_some_iff prompt.toList x).mpr hx
    simp only [deriveLocation, h]
  · intro hex
    cases h : locationMatch prompt.toList with
    | none => exact absurd hex ((locationMatch_none_iff prompt.toList).mp h)
    | some x => exact ⟨x, (locationMatch_some_iff prompt.toList x).mp h⟩
  · intro hno
    have h := (locationMatch_none_iff prompt.toList).mpr hno
    simp only [deriveLocation, h]

/-- C5 (amended) on a prompt whose capture ends in white space, `Weather for New Delhi `
with capture `New Delhi ` and location `New Delhi`, and on a prompt without a match. -/
theorem deriveLocation_greedy_lazy_capture_witness :
    GreedyLazyCapture "Weather for New Delhi ".toList "New Delhi ".toList ∧
    deriveLocation "Weather for New Delhi " = "New Delhi" ∧
    deriveLocation "Top stories today" = "Mumbai" :=
  have h : GreedyLazyCapture "Weather for New Delhi ".toList "New Delhi ".toList :=
    (locationMatch_some_iff _ _).mp (by decide)
  ⟨h, ((deriveLocation_greedy_lazy_capture "Weather for New Delhi ").1 _ h).trans (by decide),
    (deriveLocation_greedy_lazy_capture "Top stories today").2.2.1
      ((locationMatch_none_iff _).mp (by decide))⟩

/-! ## C11: a new run starts from an empty snapshot sequence -/

/-- C11: whatever snapshots run A left (`prior`, of any length N), a run B started with no
run in progress reaches the gate with exactly 6 snapshots, the first of them (index 0)
being the initial snapshot of B (the agents as B found them, the log with the INPUT entry
of B); the sequence is the one B records from an empty history, so it holds nothing that
A recorded. -/
theorem new_run_discards_prior_snapshots (clk : Nat → String) (prior : List Snapshot)
    (s : State) (h : s.isProcessing = false) :
    (handleSimulateRequest clk { s with history := prior }).history.length = 6 ∧
    (handleSimulateRequest clk { s with history := prior }).history.head? =
      some { agents := s.agents.map jsonClone,
             logs := s.logs ++ [{ timestamp := clk 0, source := "USER", type := "INPUT",
                                  message := "Request received: \"" ++ s.prompt ++ "\"" }] } ∧
    (handleSimulateRequest clk { s with history := prior }).history =
      (handleSimulateRequest clk { s with history := [] }).history := by
  refine ⟨handleSimulateRequest_history_length clk _ h, ?_, ?_⟩
  · simp [handleSimulateRequest, h, recordState]
  · simp [handleSimulateRequest, h]

/-- C11 with run A the approved first run (it left 9 snapshots) and run B started on the
state A left. -/
theorem new_run_discards_prior_snapshots_witness :
    (handleSimulateRequest sampleClock
      { approvedState with history := approvedState.history }).history.length = 6 ∧
    (handleSimulateRequest sampleClock
      { approvedState with history := approvedState.history }).history.head? =
      some { agents := approvedState.agents.map jsonClone,
             logs := approvedState.logs ++
               [{ timestamp := sampleClock 0, source := "USER", type := "INPUT",
                  message := "Request received: \"" ++ approvedState.prompt ++ "\"" }] } ∧
    (handleSimulateRequest sampleClock
      { approvedState with history := approvedState.history }).history =
      (handleSimulateRequest sampleClock { approvedState with history := [] }).history :=
  new_run_discards_prior_snapshots sampleClock approvedState.history approvedState rfl

/-! ## C12: step -/

/-- C12: on a snapshot sequence of length n >= 1, `step(delta)` sets the index to
clamp(index + delta, 0, n-1) for every index (so for every index within [0, n-1]) and every
integer delta, and the result lies within [0, n-1]; `step(-1)` at index 0 and `step(+1)`
at index n-1 leave the index where it is. -/
theorem onStep_clamps (s : State) (delta : Int) (n : Nat) (hn : 1 ≤ n)
    (hlen : s.history.length = n) :
    (onStep delta s).replayIndex = clamp (s.replayIndex + delta) 0 ((n : Int) - 1) ∧
    0 ≤ (onStep delta s).replayIndex ∧ (onStep delta s).replayIndex ≤ (n : Int) - 1 ∧
    (s.replayIndex = 0 → (onStep (-1) s).replayIndex = s.replayIndex) ∧
    (s.replayIndex = (n : Int) - 1 → (onStep 1 s).replayIndex = s.replayIndex) := by
  refine ⟨?_, ?_, ?_, ?_, ?_⟩
  · simp only [onStep, clamp, hlen]
  · simp only [onStep, hlen]
    exact le_min (le_max_left _ _) (by omega)
  · simp only [onStep, hlen]
    exact min_le_right _ _
  · intro e
    simp only [onStep, hlen]
    rw [e, max_eq_left (by decide), min_eq_left (by omega)]
  · intro e
    simp only [onStep, hlen]
    rw [e, max_eq_right (by omega), min_eq_right (by omega)]

/-- C12 on the 9 snapshots of the approved first run, at index 2 (two steps in). -/
theorem onStep_clamps_witness :
    (onStep 100 steppedState).replayIndex
      = clamp (steppedState.replayIndex + 100) 0 (((9 : Nat) : Int) - 1) ∧
    0 ≤ (onStep 100 steppedState).replayIndex ∧
    (onStep 100 steppedState).replayIndex ≤ ((9 : Nat) : Int) - 1 ∧
    (steppedState.replayIndex = 0 →
      (onStep (-1) steppedState).replayIndex = steppedState.replayIndex) ∧
    (steppedState.replayIndex = ((9 : Nat) : Int) - 1 →
      (onStep 1 steppedState).replayIndex = steppedState.replayIndex) :=
  onStep_clamps steppedState 100 9 (by decide)
    (by simp [steppedState, runOps, Op.apply, ReplayOp.apply, onStep, startReplay,
          handleApprove, handleSimulateRequest, initialState])

/-! ## C13: an autoplay tick never wraps -/

/-- C13: with index i and n snapshots, the callback of the autoplay interval leaves the
index at i+1 when i < n-1 and at i when i >= n-1; it never lowers the index, so it never
goes back to 0. A period of the autoplay effect is that callback while playing and
nothing otherwise. -/
theorem autoplay_tick_never_wraps (s : State) :
    (s.replayIndex < (s.history.length : Int) - 1 →
      (replayTick s).replayIndex = s.replayIndex + 1) ∧
    (s.replayIndex ≥ (s.history.length : Int) - 1 →
      (replayTick s).replayIndex = s.replayIndex) ∧
    s.replayIndex ≤ (replayTick s).replayIndex ∧
    (s.isPlayingReplay = true → autoplayTick s = replayTick s) ∧
    (s.isPlayingReplay = false → autoplayTick s = s) ∧
    s.replayIndex ≤ (autoplayTick s).replayIndex := by
  have hr : s.replayIndex ≤ (replayTick s).replayIndex := by
    unfold replayTick
    split
    · exact le_refl _
    · show s.replayIndex ≤ s.replayIndex + 1
      omega
  refine ⟨?_, ?_, hr, ?_, ?_, ?_⟩
  · intro h
    have hn : ¬ (s.replayIndex ≥ (s.history.length : Int) - 1) := by omega
    simp only [replayTick, if_neg hn]
  · intro h
    simp only [replayTick, if_pos h]
  · intro h; simp only [autoplayTick, h, if_true]
  · intro h; simp [autoplayTick, h]
  · unfold autoplayTick
    split
    · exact hr
    · exact le_refl _

/-- C13 on the 9 snapshots of the approved first run: at index 2 a tick gives 3. -/
theorem autoplay_tick_never_wraps_witness :
    (replayTick steppedState).replayIndex = steppedState.replayIndex + 1 :=
  (autoplay_tick_never_wraps steppedState).1
    (by simp [steppedState, runOps, Op.apply, ReplayOp.apply, onStep, startReplay,
          handleApprove, handleSimulateRequest, initialState])

/-! ## C20: entering replay -/

/-- C20: `startReplay` on an empty snapshot sequence returns the state as it is (replay
mode is not turned on); on a non-empty sequence it turns replay mode on with index 0 and
playing false, whatever index and playing flag the state had, and touches nothing else. -/
theorem startReplay_spec (s : State) :
    (s.history = [] → startReplay s = s) ∧
    (s.history ≠ [] →
      startReplay s =
        { s with isReplayMode := true, replayIndex := 0, isPlayingReplay := false }) := by
  constructor
  · intro h; simp [startReplay, h]
  · intro h
    have : ¬ s.history.length = 0 := fun e => h (List.length_eq_zero.mp e)
    simp only [startReplay, if_neg this]

/-- C20 on the mounted state (no snapshots) and on a state with 9 snapshots, index 999
and replay already on. -/
theorem startReplay_spec_witness :
    startReplay (initialState sampleClock) = initialState sampleClock ∧
    startReplay scrubbedFarState =
      { scrubbedFarState with isReplayMode := true, replayIndex := 0,
                              isPlayingReplay := false } :=
  ⟨(startReplay_spec (initialState sampleClock)).1 rfl,
   (startReplay_spec scrubbedFarState).2 (by
      simp [scrubbedFarState, runOps, Op.apply, ReplayOp.apply, onScrub, startReplay,
        handleApprove, handleSimulateRequest, initialState, recordState])⟩

/-! ## C14: what is displayed -/

/-- C14, as stated, fails: in a state with replay mode on and the index (999) outside the
9 snapshots, `history[replayIndex]` is undefined and the displayed agents and logs are the
live ones, which differ from the agents of every snapshot in the sequence. -/
theorem displayed_falls_back_to_live :
    scrubbedFarState.isReplayMode = true ∧
    historyAt scrubbedFarState.history scrubbedFarState.replayIndex = none ∧
    displayedAgents scrubbedFarState = scrubbedFarState.agents ∧
    displayedLogs scrubbedFarState = scrubbedFarState.logs ∧
    ∀ snap ∈ scrubbedFarState.history, snap.agents ≠ displayedAgents scrubbedFarState := by
  have hh : historyAt scrubbedFarState.history scrubbedFarState.replayIndex = none := by
    decide
  refine ⟨rfl, hh, rfl, rfl, ?_⟩
  decide

/-- C14 (amended): whenever replay mode is active and a snapshot exists at the index (the
index is within [0, len-1]), the displayed agent list and log list are
snapshots[index].agents and snapshots[index].logs; whenever replay mode is active but no
snapshot exists at the index, or replay mode is not active, they are the live agent list
and the live event log. -/
theorem displayed_reads_snapshot_or_live (s : State) :
    (s.isReplayMode = true → cursorInRange s →
      ∃ snap, s.history.get? s.replayIndex.toNat = some snap ∧
        displayedAgents s = snap.agents ∧ displayedLogs s = snap.logs) ∧
    (s.isReplayMode = true → ∀ snap, historyAt s.history s.replayIndex = some snap →
      displayedAgents s = snap.agents ∧ displayedLogs s = snap.logs) ∧
    (s.isReplayMode = true → historyAt s.history s.replayIndex = none →
      displayedAgents s = s.agents ∧ displayedLogs s = s.logs) ∧
    (s.isReplayMode = false → displayedAgents s = s.agents ∧ displayedLogs s = s.logs) := by
  refine ⟨?_, ?_, ?_, ?_⟩
  · intro hr hc
    have hlt : s.replayIndex.toNat < s.history.length := by
      have := hc.1
      have := hc.2
      omega
    have hget : s.history.get? s.replayIndex.toNat
        = some (s.history.get ⟨s.replayIndex.toNat, hlt⟩) := List.get?_eq_get hlt
    have hat : historyAt s.history s.replayIndex
        = some (s.history.get ⟨s.replayIndex.toNat, hlt⟩) := by
      simp only [historyAt, if_pos hc.1, hget]
    exact ⟨_, hget, by simp only [displayedAgents, hr, hat],
      by simp only [displayedLogs, hr, hat]⟩
  · intro hr snap hat
    exact ⟨by simp only [displayedAgents, hr, hat], by simp only [displayedLogs, hr, hat]⟩
  · intro hr hat
    exact ⟨by simp only [displayedAgents, hr, hat], by simp only [displayedLogs, hr, hat]⟩
  · intro hr
    constructor
    · simp only [displayedAgents, hr]
    · simp only [displayedLogs, hr]

/-- C14 (amended) at index 2 of the approved first run in replay mode, and on the live
state the run left. -/
theorem displayed_reads_snapshot_or_live_witness :
    (∃ snap, steppedState.history.get? steppedState.replayIndex.toNat = some snap ∧
      displayedAgents steppedState = snap.agents ∧ displayedLogs steppedState = snap.logs) ∧
    (displayedAgents approvedState = approvedState.agents ∧
      displayedLogs approvedState = approvedState.logs) :=
  ⟨(displayed_reads_snapshot_or_live steppedState).1 rfl (by decide),
   (displayed_reads_snapshot_or_live approvedState).2.2.2 rfl⟩

/-! ## C15: the snapshot recorder -/

theorem map_jsonClone_fields (l : List Agent) :
    (l.map jsonClone).map agentFields = l.map agentFields := by
  rw [List.map_map]
  rfl

/-- C15: `recordState(agents, logs)` appends exactly one snapshot to the sequence; its
agents equal the given agents on id, name, status, task and latency, its logs are the
given log list, and every earlier snapshot stays where and what it was. Hence the
sequence only grows: the sequence at the gate is a prefix of the sequence after approve
and of the sequence after reject. -/
theorem recordState_appends_one_snapshot (currentAgents : List Agent)
    (currentLogs : List LogEntry) (prev : List Snapshot) (clk : Nat → String) (d : Draws)
    (s : State) :
    (∃ snap, recordState currentAgents currentLogs prev = prev ++ [snap] ∧
      snap.agents.map agentFields = currentAgents.map agentFields ∧
      snap.logs = currentLogs) ∧
    (recordState currentAgents currentLogs prev).length = prev.length + 1 ∧
    (∀ i, i < prev.length →
      (recordState currentAgents currentLogs prev).get? i = prev.get? i) ∧
    prev <+: recordState currentAgents currentLogs prev ∧
    s.history <+: (handleApprove clk d s).history ∧
    s.history <+: (handleReject clk s).history := by
  refine ⟨⟨_, rfl, map_jsonClone_fields _, rfl⟩, recordState_length _ _ _, ?_,
    ⟨_, rfl⟩, ?_, ?_⟩
  · intro i hi
    simp only [recordState, List.get?_eq_getElem?]
    exact List.getElem?_append_left hi
  · simp only [handleApprove, recordState, List.append_assoc]
    exact ⟨_, rfl⟩
  · simp only [handleReject, recordState, List.append_assoc]
    exact ⟨_, rfl⟩

/-! ## C16: the event log is append-only -/

theorem handleSimulateRequest_logs (clk : Nat → String) (s : State)
    (h : s.isProcessing = false) :
    (handleSimulateRequest clk s).logs = s.logs ++
      [ { timestamp := clk 0, source := "USER", type := "INPUT",
          message := "Request received: \"" ++ s.prompt ++ "\"" },
        { timestamp := clk 1, source := "ORCHESTRATOR", type := "INFO",
          message := "Detected Location: " ++ deriveLocation s.prompt ++ ", India" },
        { timestamp := clk 2, source := "ORCHESTRATOR", type := "INFO",
          message := "Focus Category: " ++ deriveCategory s.prompt },
        { timestamp := clk 3, source := "ORCHESTRATOR", type := "INFO",
          message := "Delegating tasks to Weather & News agents" },
        { timestamp := clk 4, source := "WEATHER", type := "SUCCESS",
          message := "Retrieved: 28°C, Haze, Humidity 72%" },
        { timestamp := clk 5, source := "NEWS", type := "SUCCESS",
          message := "Retrieved 5 top tech stories" },
        { timestamp := clk 6, source := "ORCHESTRATOR", type := "WARN",
          message := "Sensitive content detected. Requesting human review." } ] := by
  simp [handleSimulateRequest, h]

/-- C16: each of startRun, approve and reject leaves the event log it found as a prefix of
the log it leaves, in every state: existing entries keep their place and content, entries
are only added at the end. -/
theorem event_log_append_only (clk : Nat → String) (d : Draws) (s : State) :
    s.logs <+: (handleSimulateRequest clk s).logs ∧
    s.logs <+: (handleApprove clk d s).logs ∧
    s.logs <+: (handleReject clk s).logs := by
  refine ⟨?_, ?_, ?_⟩
  · by_cases h : s.isProcessing = true
    · have e : handleSimulateRequest clk s = s := by simp [handleSimulateRequest, h]
      rw [e]
    · rw [handleSimulateRequest_logs clk s (by simpa using h)]
      exact ⟨_, rfl⟩
  · rw [handleApprove_logs]
    exact ⟨_, rfl⟩
  · rw [handleReject_logs]
    exact ⟨_, rfl⟩

/-! ## Status and task of an agent under `updateAgentsHelper` -/

theorem updateAgentsHelper_ids (l : List Agent) (i : Nat) (st : String) (t : Option String) :
    (updateAgentsHelper l i st t).map (fun a => a.id) = l.map (fun a => a.id) := by
  simp only [updateAgentsHelper, List.map_map]
  apply List.map_congr_left
  intro a _
  simp only [Function.comp]
  split <;> rfl

theorem updateAgentsHelper_target (l : List Agent) (i : Nat) (st : String)
    (t : Option String) :
    ∀ a ∈ updateAgentsHelper l i st t, a.id = i → a.status = st ∧ a.task = t := by
  intro a ha hid
  simp only [updateAgentsHelper, List.mem_map] at ha
  obtain ⟨a0, -, rfl⟩ := ha
  split at hid
  · split
    · exact ⟨rfl, rfl⟩
    · rename_i h1 h2; exact absurd h1 h2
  · rename_i h1; exact absurd hid h1

theorem updateAgentsHelper_other (l : List Agent) (i : Nat) (st : String) (t : Option String)
    (j : Nat) (st2 : String) (t2 : Option String) (hj : j ≠ i)
    (h : ∀ a ∈ l, a.id = j → a.status = st2 ∧ a.task = t2) :
    ∀ a ∈ updateAgentsHelper l i st t, a.id = j → a.status = st2 ∧ a.task = t2 := by
  intro a ha hid
  simp only [updateAgentsHelper, List.mem_map] at ha
  obtain ⟨a0, ha0, rfl⟩ := ha
  split at hid
  · rename_i h1
    exact absurd (h1.symm.trans hid).symm hj
  · rename_i h1
    simp only [if_neg h1]
    exact h a0 ha0 hid

theorem map_jsonClone_keeps (l : List Agent) (j : Nat) (st : String) (t : Option String)
    (h : ∀ a ∈ l, a.id = j → a.status = st ∧ a.task = t) :
    ∀ a ∈ l.map jsonClone, a.id = j → a.status = st ∧ a.task = t := by
  intro a ha hid
  simp only [List.mem_map] at ha
  obtain ⟨a0, ha0, rfl⟩ := ha
  exact h a0 ha0 hid

theorem handleSimulateRequest_agents (clk : Nat → String) (s : State)
    (h : s.isProcessing = false) :
    (handleSimulateRequest clk s).agents =
      updateAgentsHelper
        (updateAgentsHelper
          (updateAgentsHelper
            (updateAgentsHelper
              (updateAgentsHelper
                (updateAgentsHelper
                  (updateAgentsHelper s.agents 1 "active" (some "Parsing Intent..."))
                  1 "active" (some "Delegating..."))
                2 "active" (some "Fetching Weather data"))
              3 "active" (some "Scraping Tech headlines"))
            2 "idle" none)
          3 "idle" none)
        1 "active" (some "Pending Approval...") := by
  simp only [handleSimulateRequest, h, Bool.false_eq_true, if_false]

/-! ## C17: the state at the gate -/

/-- C17: for every prompt `p` and every state with no run in progress, when
`handleSimulateRequest` has run its phases the approval gate is pending, the run is still
in progress, no result artifact exists, every agent with id 1 (the orchestrator) is active
with the task `Pending Approval...`, every agent with id 2 or 3 (weather, news) is idle
without a task, the agents are the same identities in the same order, and the last
event-log entry is a WARN entry. -/
theorem gate_state_after_startRun (clk : Nat → String) (p : String) (s : State)
    (h : s.isProcessing = false) :
    (handleSimulateRequest clk { s with prompt := p }).approvalRequest = true ∧
    (handleSimulateRequest clk { s with prompt := p }).isProcessing = true ∧
    (handleSimulateRequest clk { s with prompt := p }).lastBriefing = none ∧
    (∀ a ∈ (handleSimulateRequest clk { s with prompt := p }).agents, a.id = 1 →
      a.status = "active" ∧ a.task = some "Pending Approval...") ∧
    (∀ a ∈ (handleSimulateRequest clk { s with prompt := p }).agents, a.id = 2 →
      a.status = "idle" ∧ a.task = none) ∧
    (∀ a ∈ (handleSimulateRequest clk { s with prompt := p }).agents, a.id = 3 →
      a.status = "idle" ∧ a.task = none) ∧
    (handleSimulateRequest clk { s with prompt := p }).agents.map (fun a => a.id)
      = s.agents.map (fun a => a.id) ∧
    (handleSimulateRequest clk { s with prompt := p }).logs.getLast?.map (fun e => e.type)
      = some "WARN" := by
  have hp : ({ s with prompt := p } : State).isProcessing = false := h
  have hf := handleSimulateRequest_flags clk { s with prompt := p } hp
  refine ⟨hf.2.1, hf.1, hf.2.2.1, ?_, ?_, ?_, ?_, ?_⟩
  · rw [handleSimulateRequest_agents clk _ hp]
    exact updateAgentsHelper_target _ _ _ _
  · rw [handleSimulateRequest_agents clk _ hp]
    exact updateAgentsHelper_other _ _ _ _ 2 _ _ (by decide)
      (updateAgentsHelper_other _ _ _ _ 2 _ _ (by decide) (updateAgentsHelper_target _ _ _ _))
  · rw [handleSimulateRequest_agents clk _ hp]
    exact updateAgentsHelper_other _ _ _ _ 3 _ _ (by decide) (updateAgentsHelper_target _ _ _ _)
  · rw [handleSimulateRequest_agents clk _ hp]
    simp only [updateAgentsHelper_ids]
  · rw [handleSimulateRequest_logs clk _ hp]
    simp

/-- C17 on the first run with the default prompt: the three agents at the gate. -/
theorem gate_state_after_startRun_witness :
    (handleSimulateRequest sampleClock
      { initialState sampleClock with prompt := "Sports in Pune" }).approvalRequest = true ∧
    (handleSimulateRequest sampleClock
      { initialState sampleClock with prompt := "Sports in Pune" }).agents.map
        (fun a => (a.id, a.status, a.task))
      = [(1, "active", some "Pending Approval..."), (2, "idle", none), (3, "idle", none)] :=
  ⟨(gate_state_after_startRun sampleClock "Sports in Pune" (initialState sampleClock) rfl).1,
   by decide⟩

/-! ## C18: the effects of approve -/

theorem handleApprove_history (clk : Nat → String) (d : Draws) (s : State) :
    (handleApprove clk d s).history = s.history ++
      [ { agents := s.agents.map jsonClone,
          logs := s.logs ++
            [{ timestamp := clk 0, source := "USER", type := "ACTION",
               message := "Human Operator APPROVED workflow." }] },
        { agents := (updateAgentsHelper s.agents 1 "active"
            (some "Synthesizing Final Briefing...")).map jsonClone,
          logs := s.logs ++
            [ { timestamp := clk 0, source := "USER", type := "ACTION",
                message := "Human Operator APPROVED workflow." },
              { timestamp := clk 1, source := "ORCHESTRATOR", type := "INFO",
                message := "Compiling executive summary..." } ] },
        { agents := (updateAgentsHelper (updateAgentsHelper s.agents 1 "active"
            (some "Synthesizing Final Briefing...")) 1 "idle" none).map jsonClone,
          logs := (handleApprove clk d s).logs } ] := by
  simp [handleApprove, recordState]

theorem hasPart_append_right (part text tail : String) (h : HasPart part text) :
    HasPart part (text ++ tail) := by
  obtain ⟨pre, post, e⟩ := h
  exact ⟨pre, post ++ tail, by rw [e, String.append_assoc]⟩

theorem hasPart_self_append (part before : String) : HasPart part (before ++ part) :=
  ⟨before, "", by rw [String.append_empty]⟩

theorem mockBriefingContent_ne_empty (loc category : String) (temp : Nat)
    (condition : String) : mockBriefingContent loc category temp condition ≠ "" := by
  intro h
  have hl := congrArg String.length h
  simp only [mockBriefingContent, String.length_append] at hl
  have h9 : " offices.".length = 9 := by decide
  have h0 : "".length = 0 := by decide
  rw [h9, h0] at hl
  omega

theorem mockBriefingContent_parts (loc category : String) (temp : Nat) (condition : String) :
    HasPart loc (mockBriefingContent loc category temp condition) ∧
    HasPart category (mockBriefingContent loc category temp condition) ∧
    HasPart (toString temp) (mockBriefingContent loc category temp condition) ∧
    HasPart condition (mockBriefingContent loc category temp condition) := by
  unfold mockBriefingContent
  refine ⟨?_, ?_, ?_, ?_⟩ <;>
    repeat (first
      | with_reducible exact hasPart_self_append _ _
      | with_reducible apply hasPart_append_right)

/-- C18: `handleApprove` appends exactly three event-log entries, of severities ACTION,
INFO, SUCCESS in that order, and three snapshots; in the second of them every agent with
id 1 (the orchestrator) is active with the task `Synthesizing Final Briefing...`; at the
end every agent with id 1 is idle without a task (in the last snapshot and live), the
agents are the same identities in the same order, the gate is cleared and the run is not
in progress. The result artifact is produced and stored: `lastBriefing` holds the text of
the template of lines 152-170 for the detected location and category, a temperature from
24 to 34 and one of the four conditions; that text is not the empty string and contains
the location, the category, the temperature and the condition; and the result panel is
opened. After a run that reached the gate the location and category are those derived
from the prompt of that run. This holds in every state, the pending gate state included,
where the approve button runs this handler. -/
theorem handleApprove_effects (clk clk0 : Nat → String) (d : Draws) (s s0 : State) :
    (∃ e1 e2 e3, (handleApprove clk d s).logs = s.logs ++ [e1, e2, e3] ∧
      e1.type = "ACTION" ∧ e2.type = "INFO" ∧ e3.type = "SUCCESS") ∧
    (∃ snap1 snap2 snap3,
      (handleApprove clk d s).history = s.history ++ [snap1, snap2, snap3] ∧
      (∀ a ∈ snap2.agents, a.id = 1 →
        a.status = "active" ∧ a.task = some "Synthesizing Final Briefing...") ∧
      (∀ a ∈ snap3.agents, a.id = 1 → a.status = "idle" ∧ a.task = none) ∧
      snap3.logs = (handleApprove clk d s).logs) ∧
    (∀ a ∈ (handleApprove clk d s).agents, a.id = 1 → a.status = "idle" ∧ a.task = none) ∧
    (handleApprove clk d s).agents.map (fun a => a.id) = s.agents.map (fun a => a.id) ∧
    (handleApprove clk d s).lastBriefing ≠ none ∧
    (handleApprove clk d s).approvalRequest = false ∧
    (handleApprove clk d s).isProcessing = false ∧
    (s.approvalRequest = true → s.isReplayMode = false →
      approveControl clk d s = handleApprove clk d s) ∧
    (∃ text temp condition,
      (handleApprove clk d s).lastBriefing = some text ∧
      text = mockBriefingContent s.detectedLocation s.detectedCategory temp condition ∧
      24 ≤ temp ∧ temp ≤ 34 ∧ condition ∈ conditions ∧
      text ≠ "" ∧
      HasPart s.detectedLocation text ∧ HasPart s.detectedCategory text ∧
      HasPart (toString temp) text ∧ HasPart condition text) ∧
    (handleApprove clk d s).showBriefingModal = true ∧
    (s0.isProcessing = false →
      ∃ temp condition,
        (handleApprove clk d (handleSimulateRequest clk0 s0)).lastBriefing =
          some (mockBriefingContent (deriveLocation s0.prompt) (deriveCategory s0.prompt)
            temp condition)) := by
  refine ⟨⟨_, _, _, handleApprove_logs clk d s, rfl, rfl, rfl⟩, ?_, ?_, ?_, ?_, rfl, rfl, ?_,
    ?_, rfl, ?_⟩
  · exact ⟨_, _, _, handleApprove_history clk d s,
      map_jsonClone_keeps _ 1 _ _ (updateAgentsHelper_target _ _ _ _),
      map_jsonClone_keeps _ 1 _ _ (updateAgentsHelper_target _ _ _ _), rfl⟩
  · exact updateAgentsHelper_target _ _ _ _
  · simp only [handleApprove, updateAgentsHelper_ids]
  · simp [handleApprove]
  · intro h1 h2
    simp [approveControl, h1, h2]
  · have hp := mockBriefingContent_parts s.detectedLocation s.detectedCategory
      (d.tempDraw.val + 24) (conditions.getD d.condDraw.val "")
    have hc : conditions.getD d.condDraw.val "" ∈ conditions := by
      have hd := d.condDraw.isLt
      have h4 : d.condDraw.val = 0 ∨ d.condDraw.val = 1 ∨ d.condDraw.val = 2 ∨
          d.condDraw.val = 3 := by omega
      rcases h4 with e | e | e | e <;> rw [e] <;> decide
    have ht := d.tempDraw.isLt
    exact ⟨_, d.tempDraw.val + 24, conditions.getD d.condDraw.val "", rfl, rfl, by omega,
      by omega, hc, mockBriefingContent_ne_empty _ _ _ _, hp.1, hp.2.1, hp.2.2.1, hp.2.2.2⟩
  · intro h0
    refine ⟨d.tempDraw.val + 24, conditions.getD d.condDraw.val "", ?_⟩
    simp [handleApprove, handleSimulateRequest, h0]

/-- C18 on the first run approved at the gate: the button runs the handler there; the
orchestrator in the three snapshots the approve recorded (indices 6 to 8); and the stored
artifact, the template text for Mumbai and Technology with 28 degrees and Haze. -/
theorem handleApprove_effects_witness :
    approveControl sampleClock sampleDraws gateState
      = handleApprove sampleClock sampleDraws gateState ∧
    (approvedState.history.drop 6).map
        (fun snap => snap.agents.map (fun a => (a.id, a.status, a.task)))
      = [ [(1, "active", some "Pending Approval..."), (2, "idle", none), (3, "idle", none)],
          [(1, "active", some "Synthesizing Final Briefing..."), (2, "idle", none),
           (3, "idle", none)],
          [(1, "idle", none), (2, "idle", none), (3, "idle", none)] ] ∧
    approvedState.lastBriefing = some (mockBriefingContent "Mumbai" "Technology" 28 "Haze") ∧
    (∃ temp condition,
      (handleApprove sampleClock sampleDraws
        (handleSimulateRequest sampleClock (initialState sampleClock))).lastBriefing =
        some (mockBriefingContent (deriveLocation (initialState sampleClock).prompt)
          (deriveCategory (initialState sampleClock).prompt) temp condition)) :=
  ⟨(handleApprove_effects sampleClock sampleClock sampleDraws gateState
      (initialState sampleClock)).2.2.2.2.2.2.2.1 rfl rfl,
   by decide,
   by
    have hl : deriveLocation "Morning briefing for Mumbai with tech news" = "Mumbai" := by
      decide
    have hc : deriveCategory "Morning briefing for Mumbai with tech news" = "Technology" := by
      decide
    show some (mockBriefingContent
        (deriveLocation "Morning briefing for Mumbai with tech news")
        (deriveCategory "Morning briefing for Mumbai with tech news") 28 "Haze") = _
    rw [hl, hc],
   (handleApprove_effects sampleClock sampleClock sampleDraws gateState
      (initialState sampleClock)).2.2.2.2.2.2.2.2.2.2 rfl⟩

/-! ## C19: the effects of reject -/

theorem handleReject_history (clk : Nat → String) (s : State) :
    (handleReject clk s).history = s.history ++
      [ { agents := (updateAgentsHelper s.agents 1 "error"
            (some "Workflow Terminated by User")).map jsonClone,
          logs := (handleReject clk s).logs },
        { agents := (updateAgentsHelper (updateAgentsHelper s.agents 1 "error"
            (some "Workflow Terminated by User")) 1 "idle" none).map jsonClone,
          logs := (handleReject clk s).logs } ] := by
  simp [handleReject, recordState]

/-- C19: `handleReject` appends exactly two event-log entries, ACTION then ERROR, and two
snapshots: in the first every agent with id 1 (the orchestrator) has status error and task
`Workflow Terminated by User`, in the second it is idle without a task; afterwards the
gate is cleared, the run is not in progress and the result artifact is what it was, which
at the gate a run has just reached is null. -/
theorem handleReject_effects (clk clk0 : Nat → String) (s s0 : State)
    (h0 : s0.isProcessing = false) :
    (∃ e1 e2, (handleReject clk s).logs = s.logs ++ [e1, e2] ∧
      e1.type = "ACTION" ∧ e2.type = "ERROR") ∧
    (∃ snap1 snap2,
      (handleReject clk s).history = s.history ++ [snap1, snap2] ∧
      (∀ a ∈ snap1.agents, a.id = 1 →
        a.status = "error" ∧ a.task = some "Workflow Terminated by User") ∧
      snap1.logs = (handleReject clk s).logs ∧
      (∀ a ∈ snap2.agents, a.id = 1 → a.status = "idle" ∧ a.task = none) ∧
      snap2.logs = (handleReject clk s).logs) ∧
    (∀ a ∈ (handleReject clk s).agents, a.id = 1 → a.status = "idle" ∧ a.task = none) ∧
    (handleReject clk s).agents.map (fun a => a.id) = s.agents.map (fun a => a.id) ∧
    (handleReject clk s).approvalRequest = false ∧
    (handleReject clk s).isProcessing = false ∧
    (handleReject clk s).lastBriefing = s.lastBriefing ∧
    (handleSimulateRequest clk0 s0).approvalRequest = true ∧
    (handleReject clk (handleSimulateRequest clk0 s0)).lastBriefing = none := by
  have hf := handleSimulateRequest_flags clk0 s0 h0
  refine ⟨⟨_, _, handleReject_logs clk s, rfl, rfl⟩, ?_, ?_, ?_, rfl, rfl, rfl, hf.2.1, ?_⟩
  · exact ⟨_, _, handleReject_history clk s,
      map_jsonClone_keeps _ 1 _ _ (updateAgentsHelper_target _ _ _ _), rfl,
      map_jsonClone_keeps _ 1 _ _ (updateAgentsHelper_target _ _ _ _), rfl⟩
  · exact updateAgentsHelper_target _ _ _ _
  · simp only [handleReject, updateAgentsHelper_ids]
  · exact hf.2.2.1

/-- C19 on the first run rejected at the gate: the orchestrator in the two snapshots the
reject recorded (indices 6 and 7), and the artifact. -/
theorem handleReject_effects_witness :
    (rejectedState.history.drop 6).map
        (fun snap => snap.agents.map (fun a => (a.id, a.status, a.task)))
      = [ [(1, "error", some "Workflow Terminated by User"), (2, "idle", none),
           (3, "idle", none)],
          [(1, "idle", none), (2, "idle", none), (3, "idle", none)] ] ∧
    (handleReject sampleClock
      (handleSimulateRequest sampleClock (initialState sampleClock))).lastBriefing = none :=
  ⟨by decide,
   (handleReject_effects sampleClock sampleClock gateState (initialState sampleClock)
      rfl).2.2.2.2.2.2.2.2⟩

/-! ## C21: leaving replay -/

theorem autoplayTicks_not_playing (k : Nat) (s : State) (h : s.isPlayingReplay = false) :
    autoplayTicks k s = s := by
  induction k with
  | zero => rfl
  | succ k ih =>
    have e : autoplayTick s = s := by simp [autoplayTick, h]
    rw [autoplayTicks, e, ih]

/-- C21: for every state, after `exitReplay` replay mode is off and playing is false; the
autoplay interval, which exists only while playing, runs no more, so no number of further
periods changes the state (the index included); and the displayed agents and logs are the
live agent list and the live event log, as they were before the exit. -/
theorem exitReplay_spec (s : State) (k : Nat) :
    (exitReplay s).isReplayMode = false ∧
    (exitReplay s).isPlayingReplay = false ∧
    autoplayTicks k (exitReplay s) = exitReplay s ∧
    (autoplayTicks k (exitReplay s)).replayIndex = s.replayIndex ∧
    displayedAgents (exitReplay s) = s.agents ∧
    displayedLogs (exitReplay s) = s.logs ∧
    (exitReplay s).agents = s.agents ∧ (exitReplay s).logs = s.logs := by
  have hk := autoplayTicks_not_playing k (exitReplay s) rfl
  refine ⟨rfl, rfl, hk, by rw [hk]; rfl, rfl, rfl, rfl, rfl⟩

/-! ## C22: the two collection snapshots -/

theorem map_jsonClone_ids (l : List Agent) :
    (l.map jsonClone).map (fun a => a.id) = l.map (fun a => a.id) := by
  rw [List.map_map]
  rfl

theorem handleSimulateRequest_history (clk : Nat → String) (s : State)
    (h : s.isProcessing = false) :
    (handleSimulateRequest clk s).history =
      [ { agents := s.agents.map jsonClone,
          logs := s.logs ++
            [{ timestamp := clk 0, source := "USER", type := "INPUT",
               message := "Request received: \"" ++ s.prompt ++ "\"" }] },
        { agents := (updateAgentsHelper s.agents 1 "active"
            (some "Parsing Intent...")).map jsonClone,
          logs := (handleSimulateRequest clk s).logs.take (s.logs.length + 4) },
        { agents := (updateAgentsHelper (updateAgentsHelper (updateAgentsHelper
            (updateAgentsHelper s.agents 1 "active" (some "Parsing Intent..."))
              1 "active" (some "Delegating..."))
              2 "active" (some "Fetching Weather data"))
              3 "active" (some "Scraping Tech headlines")).map jsonClone,
          logs := (handleSimulateRequest clk s).logs.take (s.logs.length + 4) },
        { agents := (updateAgentsHelper (updateAgentsHelper (updateAgentsHelper
            (updateAgentsHelper (updateAgentsHelper s.agents 1 "active"
              (some "Parsing Intent..."))
              1 "active" (some "Delegating..."))
              2 "active" (some "Fetching Weather data"))
              3 "active" (some "Scraping Tech headlines"))
              2 "idle" none).map jsonClone,
          logs := (handleSimulateRequest clk s).logs.take (s.logs.length + 5) },
        { agents := (updateAgentsHelper (updateAgentsHelper (updateAgentsHelper
            (updateAgentsHelper (updateAgentsHelper (updateAgentsHelper s.agents 1 "active"
              (some "Parsing Intent..."))
              1 "active" (some "Delegating..."))
              2 "active" (some "Fetching Weather data"))
              3 "active" (some "Scraping Tech headlines"))
              2 "idle" none)
              3 "idle" none).map jsonClone,
          logs := (handleSimulateRequest clk s).logs.take (s.logs.length + 6) },
        { agents := (handleSimulateRequest clk s).agents.map jsonClone,
          logs := (handleSimulateRequest clk s).logs } ] := by
  rw [handleSimulateRequest_logs clk s h, handleSimulateRequest_agents clk s h]
  simp [handleSimulateRequest, h, recordState, List.take_append_eq_append_take]

theorem handleSimulateRequest_logs_take (clk : Nat → String) (s : State)
    (h : s.isProcessing = false) :
    ((handleSimulateRequest clk s).logs.take (s.logs.length + 5)).getLast? =
      some { timestamp := clk 4, source := "WEATHER", type := "SUCCESS",
             message := "Retrieved: 28°C, Haze, Humidity 72%" } ∧
    ((handleSimulateRequest clk s).logs.take (s.logs.length + 6)).getLast? =
      some { timestamp := clk 5, source := "NEWS", type := "SUCCESS",
             message := "Retrieved 5 top tech stories" } := by
  rw [handleSimulateRequest_logs clk s h]
  simp [List.take_append_eq_append_take]

/-- C22: in every run (any state with no run in progress, any prompt) the fourth snapshot
(index 3) shows every agent with id 2 (weather) idle without task while every agent with
id 3 (news) is still active on `Scraping Tech headlines`, and its last log entry is the
WEATHER SUCCESS entry; the fifth snapshot (index 4) shows the agents with id 2 and with id
3 idle without task, and its last log entry is the NEWS SUCCESS entry. -/
theorem collection_snapshots (clk : Nat → String) (s : State) (h : s.isProcessing = false) :
    ∃ snap3 snap4,
      (handleSimulateRequest clk s).history.get? 3 = some snap3 ∧
      (handleSimulateRequest clk s).history.get? 4 = some snap4 ∧
      (∀ a ∈ snap3.agents, a.id = 2 → a.status = "idle" ∧ a.task = none) ∧
      (∀ a ∈ snap3.agents, a.id = 3 →
        a.status = "active" ∧ a.task = some "Scraping Tech headlines") ∧
      snap3.logs.getLast? =
        some { timestamp := clk 4, source := "WEATHER", type := "SUCCESS",
               message := "Retrieved: 28°C, Haze, Humidity 72%" } ∧
      (∀ a ∈ snap4.agents, a.id = 2 → a.status = "idle" ∧ a.task = none) ∧
      (∀ a ∈ snap4.agents, a.id = 3 → a.status = "idle" ∧ a.task = none) ∧
      snap4.logs.getLast? =
        some { timestamp := clk 5, source := "NEWS", type := "SUCCESS",
               message := "Retrieved 5 top tech stories" } ∧
      snap3.agents.map (fun a => a.id) = s.agents.map (fun a => a.id) ∧
      snap4.agents.map (fun a => a.id) = s.agents.map (fun a => a.id) := by
  have hl := handleSimulateRequest_logs_take clk s h
  refine ⟨_, _, by rw [handleSimulateRequest_history clk s h]; rfl,
    by rw [handleSimulateRequest_history clk s h]; rfl, ?_, ?_, hl.1, ?_, ?_, hl.2, ?_, ?_⟩
  · exact map_jsonClone_keeps _ 2 _ _ (updateAgentsHelper_target _ _ _ _)
  · exact map_jsonClone_keeps _ 3 _ _
      (updateAgentsHelper_other _ _ _ _ 3 _ _ (by decide) (updateAgentsHelper_target _ _ _ _))
  · exact map_jsonClone_keeps _ 2 _ _
      (updateAgentsHelper_other _ _ _ _ 2 _ _ (by decide) (updateAgentsHelper_target _ _ _ _))
  · exact map_jsonClone_keeps _ 3 _ _ (updateAgentsHelper_target _ _ _ _)
  · rw [map_jsonClone_ids]
    simp only [updateAgentsHelper_ids]
  · rw [map_jsonClone_ids]
    simp only [updateAgentsHelper_ids]

/-- C22 on the first run: agents (id, status, task) and last log source in the snapshots
at index 3 and 4. -/
theorem collection_snapshots_witness :
    ((gateState.history.drop 3).take 2).map
        (fun snap => (snap.agents.map (fun a => (a.id, a.status, a.task)),
          snap.logs.getLast?.map (fun e => (e.source, e.type))))
      = [ ([(1, "active", some "Delegating..."), (2, "idle", none),
            (3, "active", some "Scraping Tech headlines")], some ("WEATHER", "SUCCESS")),
          ([(1, "active", some "Delegating..."), (2, "idle", none), (3, "idle", none)],
            some ("NEWS", "SUCCESS")) ] ∧
    (∃ snap3 snap4,
      (handleSimulateRequest sampleClock (initialState sampleClock)).history.get? 3
        = some snap3 ∧
      (handleSimulateRequest sampleClock (initialState sampleClock)).history.get? 4
        = some snap4) :=
  ⟨by decide,
   (collection_snapshots sampleClock (initialState sampleClock) rfl).imp fun _ h3 =>
     h3.imp fun _ h4 => ⟨h4.1, h4.2.1⟩⟩

/-! ## C23: the run controller writes only status and task -/

theorem updateAgentsHelper_identity (l : List Agent) (i : Nat) (st : String)
    (t : Option String) :
    (updateAgentsHelper l i st t).map agentIdentity = l.map agentIdentity := by
  simp only [updateAgentsHelper, List.map_map]
  apply List.map_congr_left
  intro a _
  simp only [Function.comp]
  split <;> rfl

/-- C23: `handleSimulateRequest`, `handleApprove` and `handleReject` leave the agent list
with the same length and order and every agent with the same id, name, icon and latency
(only status and task can differ). `updateAgentsHelper(list, id, status, task)` returns a
list of the same length in which, position by position, an agent whose id is the given id
has the new status and task and its other fields as before, and every other agent is the
agent it was. -/
theorem run_ops_keep_agent_identity (clk : Nat → String) (d : Draws) (s : State)
    (l : List Agent) (id : Nat) (st : String) (t : Option String) :
    (handleSimulateRequest clk s).agents.map agentIdentity = s.agents.map agentIdentity ∧
    (handleApprove clk d s).agents.map agentIdentity = s.agents.map agentIdentity ∧
    (handleReject clk s).agents.map agentIdentity = s.agents.map agentIdentity ∧
    (updateAgentsHelper l id st t).length = l.length ∧
    (∀ i a, l.get? i = some a →
      ∃ b, (updateAgentsHelper l id st t).get? i = some b ∧
        agentIdentity b = agentIdentity a ∧
        (a.id = id → b.status = st ∧ b.task = t) ∧
        (a.id ≠ id → b = a)) := by
  refine ⟨?_, ?_, ?_, ?_, ?_⟩
  · by_cases h : s.isProcessing = true
    · have e : handleSimulateRequest clk s = s := by simp [handleSimulateRequest, h]
      rw [e]
    · rw [handleSimulateRequest_agents clk s (by simpa using h)]
      simp only [updateAgentsHelper_identity]
  · simp only [handleApprove, updateAgentsHelper_identity]
  · simp only [handleReject, updateAgentsHelper_identity]
  · simp [updateAgentsHelper]
  · intro i a ha
    simp only [updateAgentsHelper, List.get?_eq_getElem?, List.getElem?_map] at ha ⊢
    rw [ha]
    refine ⟨_, rfl, ?_, ?_, ?_⟩
    · by_cases e : a.id = id
      · simp only [if_pos e]; rfl
      · simp only [if_neg e]
    · intro e
      simp only [if_pos e, and_self]
    · intro e
      simp only [if_neg e]

/-- C23 on the three agents of the mounted state, updating id 2. -/
theorem run_ops_keep_agent_identity_witness :
    ∃ b, (updateAgentsHelper (initialState sampleClock).agents 2 "active"
        (some "Fetching Weather data")).get? 1 = some b ∧
      agentIdentity b = (2, "Weather Agent", some Icon.cloudRain, 120) ∧
      b.status = "active" ∧ b.task = some "Fetching Weather data" :=
  have h := (run_ops_keep_agent_identity sampleClock sampleDraws (initialState sampleClock)
    (initialState sampleClock).agents 2 "active" (some "Fetching Weather data")).2.2.2.2 1
    { id := 2, name := "Weather Agent", status := "idle", icon := some Icon.cloudRain,
      latency := 120, task := none } rfl
  h.imp fun _ hb => ⟨hb.1, hb.2.1, hb.2.2.1 rfl⟩

/-! ## C24: both derivations are logged -/

/-- C24: for every prompt `p` (and every state with no run in progress) the event log at
the gate is the log before the run followed by the INPUT entry that quotes `p`, then an
INFO entry of the orchestrator whose message is `Detected Location: `, the derived
location, `, India`, then an INFO entry of the orchestrator whose message is
`Focus Category: ` and the derived category, then further entries; the derived values are
the ones stored in the state. -/
theorem derivations_logged (clk : Nat → String) (p : String) (s : State)
    (h : s.isProcessing = false) :
    ∃ eIn eLoc eCat rest,
      (handleSimulateRequest clk { s with prompt := p }).logs
        = s.logs ++ eIn :: eLoc :: eCat :: rest ∧
      eIn.type = "INPUT" ∧ eIn.message = "Request received: \"" ++ p ++ "\"" ∧
      eLoc.type = "INFO" ∧ eLoc.source = "ORCHESTRATOR" ∧
      eLoc.message = "Detected Location: " ++ deriveLocation p ++ ", India" ∧
      eCat.type = "INFO" ∧ eCat.source = "ORCHESTRATOR" ∧
      eCat.message = "Focus Category: " ++ deriveCategory p ∧
      (handleSimulateRequest clk { s with prompt := p }).detectedLocation = deriveLocation p ∧
      (handleSimulateRequest clk { s with prompt := p }).detectedCategory
        = deriveCategory p := by
  have hp : ({ s with prompt := p } : State).isProcessing = false := h
  refine ⟨_, _, _, _, handleSimulateRequest_logs clk _ hp, rfl, rfl, rfl, rfl, rfl, rfl, rfl,
    rfl, ?_, ?_⟩
  · simp [handleSimulateRequest, h]
  · simp [handleSimulateRequest, h]

/-- C24 on the first run with the prompt `Sports in Pune`: the three messages. -/
theorem derivations_logged_witness :
    (((handleSimulateRequest sampleClock
        { initialState sampleClock with prompt := "Sports in Pune" }).logs.drop 2).take 3).map
        (fun e => e.message)
      = [ "Request received: \"Sports in Pune\"", "Detected Location: Pune, India",
          "Focus Category: Sports" ] ∧
    (∃ eIn eLoc eCat rest,
      (handleSimulateRequest sampleClock
        { initialState sampleClock with prompt := "Sports in Pune" }).logs
        = (initialState sampleClock).logs ++ eIn :: eLoc :: eCat :: rest) :=
  ⟨by decide,
   (derivations_logged sampleClock "Sports in Pune" (initialState sampleClock) rfl).imp
     fun _ h1 => h1.imp fun _ h2 => h2.imp fun _ h3 => h3.imp fun _ h4 => h4.1⟩

/-! ## C28: the last snapshot and the live view -/

theorem displayed_at_last_index (t : State) (snap : Snapshot)
    (h : t.history.getLast? = some snap) :
    displayedAgents
        { t with isReplayMode := true, replayIndex := (t.history.length : Int) - 1 }
      = snap.agents ∧
    displayedLogs
        { t with isReplayMode := true, replayIndex := (t.history.length : Int) - 1 }
      = snap.logs := by
  have hne : t.history ≠ [] := by
    intro e; rw [e] at h; simp at h
  have hpos : 0 < t.history.length := List.length_pos.mpr hne
  have hat : historyAt t.history ((t.history.length : Int) - 1) = some snap := by
    have h0 : (0 : Int) ≤ (t.history.length : Int) - 1 := by omega
    have ht : ((t.history.length : Int) - 1).toNat = t.history.length - 1 := by omega
    simp only [historyAt, if_pos h0, ht, List.get?_eq_getElem?]
    rw [← List.getLast?_eq_getElem?]
    exact h
  exact ⟨by simp only [displayedAgents, hat], by simp only [displayedLogs, hat]⟩

/-- At the gate (end of `handleSimulateRequest`, from any state
with no run in progress) and at completion (end of `handleApprove` or `handleReject`, from
any state) the last snapshot of the sequence has the live agents on id, name, status,
task and latency and has the live event log, and these are the agent data and the log
that `displayedAgents` and `displayedLogs` read at the last index. The icon is not among
the fields that agree. -/
theorem last_snapshot_matches_live (clk clk2 : Nat → String) (d : Draws) (s0 s : State)
    (h0 : s0.isProcessing = false) :
    (∀ t, t = handleSimulateRequest clk s0 ∨ t = handleApprove clk2 d s ∨
        t = handleReject clk2 s →
      ∃ snap, t.history.getLast? = some snap ∧
        snap.agents.map agentFields = t.agents.map agentFields ∧
        snap.logs = t.logs ∧
        (displayedAgents
            { t with isReplayMode := true, replayIndex := (t.history.length : Int) - 1 }).map
            agentFields = t.agents.map agentFields ∧
        displayedLogs
            { t with isReplayMode := true, replayIndex := (t.history.length : Int) - 1 }
          = t.logs) := by
  intro t ht
  have key : ∃ snap, t.history.getLast? = some snap ∧
      snap.agents.map agentFields = t.agents.map agentFields ∧ snap.logs = t.logs := by
    rcases ht with rfl | rfl | rfl
    · refine ⟨{ agents := (handleSimulateRequest clk s0).agents.map jsonClone,
                logs := (handleSimulateRequest clk s0).logs }, ?_, map_jsonClone_fields _, rfl⟩
      rw [handleSimulateRequest_history clk s0 h0]
      rfl
    · refine ⟨{ agents := (handleApprove clk2 d s).agents.map jsonClone,
                logs := (handleApprove clk2 d s).logs }, ?_, map_jsonClone_fields _, rfl⟩
      rw [handleApprove_history]
      simp [handleApprove]
    · refine ⟨{ agents := (handleReject clk2 s).agents.map jsonClone,
                logs := (handleReject clk2 s).logs }, ?_, map_jsonClone_fields _, rfl⟩
      rw [handleReject_history]
      simp [handleReject]
  obtain ⟨snap, hlast, ha, hl⟩ := key
  have hd := displayed_at_last_index t snap hlast
  exact ⟨snap, hlast, ha, hl, by rw [hd.1]; exact ha, by rw [hd.2]; exact hl⟩

theorem agentCards_of_snapshot (l : List Agent) (h : l ≠ []) :
    agentCards (l.map jsonClone) = none := by
  cases l with
  | nil => exact absurd rfl h
  | cons a rest => simp [agentCards, agentStatusCard, jsonClone]

/-- C28: the code at the first run, approved and opened in replay at its last index (8 of
0..8). The agents displayed there agree with the live agents on id, name, status, task
and latency and the displayed log is the live log, but the displayed agents are not the
live agents: the snapshot copies carry no icon. The live view renders its three agent
cards; the replay view renders none (`AgentStatusCard` has no component to mount), at
the last index and already at index 0 where replay opens. Replay at the last index does
not show what the live view shows. -/
theorem replay_of_last_snapshot_cannot_render :
    replayAtLastState.isReplayMode = true ∧
    replayAtLastState.replayIndex = 8 ∧
    replayAtLastState.history.length = 9 ∧
    replayAtLastState.agents = approvedState.agents ∧
    (displayedAgents replayAtLastState).map agentFields
      = approvedState.agents.map agentFields ∧
    displayedLogs replayAtLastState = approvedState.logs ∧
    displayedAgents replayAtLastState ≠ displayedAgents approvedState ∧
    (∀ a ∈ displayedAgents replayAtLastState, a.icon = none) ∧
    renderAgentCards approvedState =
      some [ { icon := Icon.brainCircuit, name := "Orchestrator Node", status := "idle",
               task := "Awaiting instructions...", latency := 45 },
             { icon := Icon.cloudRain, name := "Weather Agent", status := "idle",
               task := "Awaiting instructions...", latency := 120 },
             { icon := Icon.newspaper, name := "News Agent", status := "idle",
               task := "Awaiting instructions...", latency := 210 } ] ∧
    renderAgentCards replayAtLastState = none ∧
    renderAgentCards (startReplay approvedState) = none := by
  refine ⟨rfl, rfl, ?_, rfl, ?_, ?_, ?_, ?_, ?_, ?_, ?_⟩
  · simp [replayAtLastState, runOps, Op.apply, ReplayOp.apply, onScrub, startReplay,
      handleApprove, handleSimulateRequest, initialState]
  · decide
  · rfl
  · decide
  · decide
  · decide
  · decide
  · decide

/-! ## C29: autoplay terminates -/

theorem autoplayTicks_add (a b : Nat) (s : State) :
    autoplayTicks (a + b) s = autoplayTicks b (autoplayTicks a s) := by
  induction a generalizing s with
  | zero => simp [autoplayTicks]
  | succ a ih =>
    have e : a + 1 + b = (a + b) + 1 := by omega
    rw [e, autoplayTicks, ih, autoplayTicks]

/-- C29: from playing at index i of an n-entry history (n >= 1, 0 <= i <= n-1), after
n-i ticks, and after any larger number of ticks, playing is false and the index is n-1;
so autoplay has stopped within n-i ticks and no later tick changes the index. -/
theorem autoplay_terminates (s : State) (n i k : Nat) (hn : 1 ≤ n)
    (hlen : s.history.length = n) (hidx : s.replayIndex = (i : Int)) (hi : i ≤ n - 1)
    (hplay : s.isPlayingReplay = true) (hk : n - i ≤ k) :
    (autoplayTicks k s).isPlayingReplay = false ∧
    (autoplayTicks k s).replayIndex = (n : Int) - 1 ∧
    (autoplayTicks (k + 1) s).replayIndex = (autoplayTicks k s).replayIndex := by
  have h1 := autoplayTicks_advance (n - 1 - i) s hplay (by rw [hidx, hlen]; omega)
  have h2 := autoplayTick_at_end
    { s with replayIndex := s.replayIndex + ((n - 1 - i : Nat) : Int) } hplay
    (by show s.replayIndex + ((n - 1 - i : Nat) : Int) ≥ (s.history.length : Int) - 1
        rw [hidx, hlen]; omega)
  have stop : ∀ m, n - i ≤ m → autoplayTicks m s =
      { s with replayIndex := s.replayIndex + ((n - 1 - i : Nat) : Int),
               isPlayingReplay := false } := by
    intro m hm
    have e : m = (n - 1 - i) + (1 + (m - (n - i))) := by omega
    rw [e, autoplayTicks_add, h1, autoplayTicks_add]
    have e1 : autoplayTicks 1
        { s with replayIndex := s.replayIndex + ((n - 1 - i : Nat) : Int) }
        = { s with replayIndex := s.replayIndex + ((n - 1 - i : Nat) : Int),
                   isPlayingReplay := false } := by
      rw [autoplayTicks, autoplayTicks, h2]
    rw [e1]
    exact autoplayTicks_not_playing _ _ rfl
  rw [stop k hk, stop (k + 1) (by omega)]
  refine ⟨rfl, ?_, rfl⟩
  show s.replayIndex + ((n - 1 - i : Nat) : Int) = (n : Int) - 1
  rw [hidx]; omega

/-- C29 on the 9 snapshots of the approved first run, playing from index 2: after 7 ticks
(and one more) playing is false and the index is 8. -/
theorem autoplay_terminates_witness :
    (autoplayTicks 7 (onPlayPause steppedState)).isPlayingReplay = false ∧
    (autoplayTicks 7 (onPlayPause steppedState)).replayIndex = ((9 : Nat) : Int) - 1 ∧
    (autoplayTicks (7 + 1) (onPlayPause steppedState)).replayIndex
      = (autoplayTicks 7 (onPlayPause steppedState)).replayIndex :=
  autoplay_terminates (onPlayPause steppedState) 9 2 7 (by decide)
    (by simp [steppedState, runOps, Op.apply, ReplayOp.apply, onStep, startReplay, onPlayPause,
          handleApprove, handleSimulateRequest, initialState])
    (by decide) (by decide) rfl (by decide)

/-! ## C25: the location keyword need not be a separate word -/

theorem spacesThen_some_starts_with_space {α : Type} (k : List Char → Option α)
    (r : List Char) (v : α) (h : spacesThen k r = some v) :
    ∃ c cs, r = c :: cs ∧ isJsSpace c = true := by
  cases r with
  | nil => simp [spacesThen] at h
  | cons c cs =>
    refine ⟨c, cs, rfl, ?_⟩
    by_contra hc
    simp [spacesThen, hc] at h

theorem matchHere_some_keywordThenSpaceHere (s x : List Char) (h : matchHere s = some x) :
    keywordThenSpaceHere s = true := by
  unfold matchHere at h
  rw [Option.orElse_eq_some'] at h
  unfold keywordThenSpaceHere
  rcases h with h | ⟨-, h⟩
  · cases e : stripCI "in".toList s with
    | none => rw [e] at h; simp at h
    | some r =>
      rw [e] at h
      obtain ⟨c, cs, hr, hc⟩ := spacesThen_some_starts_with_space _ r x h
      subst hr
      simp [hc]
  · cases e : stripCI "for".toList s with
    | none => rw [e] at h; simp at h
    | some r =>
      rw [e] at h
      obtain ⟨c, cs, hr, hc⟩ := spacesThen_some_starts_with_space _ r x h
      subst hr
      simp [hc]

theorem locationMatch_none_of_no_keywordThenSpace (p : List Char)
    (h : keywordThenSpace p = false) : locationMatch p = none := by
  have here : ∀ s, keywordThenSpaceHere s = false → matchHere s = none := by
    intro s hs
    cases e : matchHere s with
    | none => rfl
    | some x =>
      rw [matchHere_some_keywordThenSpaceHere s x e] at hs
      exact absurd hs (by decide)
  induction p with
  | nil => exact here [] rfl
  | cons c cs ih =>
    simp only [keywordThenSpace, Bool.or_eq_false_iff] at h
    simp only [locationMatch, here _ h.1, ih h.2]
    rfl

/-- C25, as stated, fails: in `Berlin news` neither `in` nor `for` occurs as a separate
word (the only `in` ends the word `Berlin`), yet the pattern matches at that `in` and the
derived location is `news`, not `Mumbai`. -/
theorem location_keyword_inside_word :
    occursAsWord "in" "Berlin news" = false ∧
    occursAsWord "for" "Berlin news" = false ∧
    deriveLocation "Berlin news" = "news" ∧
    deriveLocation "Berlin news" ≠ "Mumbai" := by
  refine ⟨by decide, by decide, by decide, by decide⟩

/-- C25 (amended): for every prompt in which no occurrence of `in` or `for` (letters in
either case, as a word of its own or inside or at the end of a longer word) is directly
followed by a white-space character, the pattern matches nowhere and the derived location
is the default `Mumbai`. -/
theorem location_default_without_keyword_then_space (prompt : String)
    (h : keywordThenSpace prompt.toList = false) :
    locationMatch prompt.toList = none ∧ deriveLocation prompt = "Mumbai" := by
  have hn := locationMatch_none_of_no_keywordThenSpace prompt.toList h
  exact ⟨hn, by simp only [deriveLocation, hn]⟩

/-- C25 (amended) on `Morning headlines`, where `in` occurs twice inside a word and is
never followed by white space. -/
theorem location_default_without_keyword_then_space_witness :
    locationMatch "Morning headlines".toList = none ∧
    deriveLocation "Morning headlines" = "Mumbai" :=
  location_default_without_keyword_then_space "Morning headlines" (by decide)

/-! ## C27: the derived location can be empty -/

theorem trim_eq_nil_iff (x : List Char) :
    trim x = [] ↔ ∀ c ∈ x, isJsSpace c = true := by
  unfold trim
  rw [List.reverse_eq_nil_iff, List.dropWhile_eq_nil_iff]
  constructor
  · intro h
    have hd : x.dropWhile isJsSpace = [] := by
      by_contra hne
      have hh := List.head_dropWhile_not isJsSpace x hne
      have hm : (x.dropWhile isJsSpace).head hne ∈ (x.dropWhile isJsSpace).reverse :=
        List.mem_reverse.mpr (List.head_mem hne)
      rw [h _ hm] at hh
      exact absurd hh (by decide)
    exact List.dropWhile_eq_nil_iff.mp hd
  · intro h c hc
    have hd : x.dropWhile isJsSpace = [] := List.dropWhile_eq_nil_iff.mpr h
    rw [hd] at hc
    simp at hc

theorem string_mk_ne_empty (l : List Char) : String.mk l ≠ "" ↔ l ≠ [] := by
  constructor
  · intro h e
    exact h (by rw [e])
  · intro h e
    exact h (congrArg String.data e)

/-- C27, as stated, fails: in `Weather in  ` (two trailing blanks) the pattern matches
with the capture one blank, and the derived location is the empty string. -/
theorem location_can_be_empty :
    locationMatch "Weather in  ".toList = some [' '] ∧
    deriveLocation "Weather in  " = "" ∧
    (deriveLocation "Weather in  ").length = 0 := by
  refine ⟨by decide, by decide, by decide⟩

/-- C27 (amended): for every prompt, when the location pattern matches with capture X the
derived location is the trimmed X, which is non-empty exactly when X holds a character
that is not white space (a capture of white space only gives the empty string); when the
pattern matches nowhere the location is `Mumbai`, which is non-empty. -/
theorem location_nonempty_iff (prompt : String) :
    (∀ x, GreedyLazyCapture prompt.toList x →
      deriveLocation prompt = String.mk (trim x) ∧
      (deriveLocation prompt ≠ "" ↔ ∃ c ∈ x, isJsSpace c = false)) ∧
    ((¬ ∃ pre ws x, PatternMatch prompt.toList pre ws x) →
      deriveLocation prompt = "Mumbai" ∧ deriveLocation prompt ≠ "") := by
  constructor
  · intro x hx
    have h := (locationMatch_some_iff prompt.toList x).mpr hx
    have e : deriveLocation prompt = String.mk (trim x) := by simp only [deriveLocation, h]
    refine ⟨e, ?_⟩
    rw [e, string_mk_ne_empty, Ne, trim_eq_nil_iff]
    constructor
    · intro hn
      by_contra hall
      apply hn
      intro c hc
      by_contra hsp
      exact hall ⟨c, hc, by simpa using hsp⟩
    · rintro ⟨c, hc, hsp⟩ hall
      rw [hall c hc] at hsp
      exact absurd hsp (by decide)
  · intro hno
    have h := (locationMatch_none_iff prompt.toList).mpr hno
    have e : deriveLocation prompt = "Mumbai" := by simp only [deriveLocation, h]
    exact ⟨e, by rw [e]; decide⟩

/-- C27 (amended) on a prompt whose capture holds letters and on one without a match. -/
theorem location_nonempty_iff_witness :
    (deriveLocation "Weather for New Delhi " = String.mk (trim "New Delhi ".toList) ∧
      (deriveLocation "Weather for New Delhi " ≠ "" ↔
        ∃ c ∈ "New Delhi ".toList, isJsSpace c = false)) ∧
    (deriveLocation "Top stories today" = "Mumbai" ∧ deriveLocation "Top stories today" ≠ "") :=
  ⟨(location_nonempty_iff "Weather for New Delhi ").1 _
      ((locationMatch_some_iff _ _).mp (by decide)),
   (location_nonempty_iff "Top stories today").2
      ((locationMatch_none_iff _).mp (by decide))⟩

/-! ## C26: the saved-briefing list -/

/-- C26: for every prior list of saved briefings, whatever its length, and every query and
content, after `saveBriefingToHistory` the new briefing (the given query and content, the
generated title, the stamp of the clock) is the first element, the elements after it are
the first 49 of the prior list in their order, the list has at most 50 entries (the value
of `MAX_HISTORY_ITEMS`), namely one more than before up to 50, and the same list is what
is stored. -/
theorem saveBriefingToHistory_spec (upper : Nat → JsString) (stamp : SaveStamp)
    (query content : JsString) (store : HistoryStore) :
    (saveBriefingToHistory upper stamp query content store).1.briefingHistory.head? =
      some { id := stamp.id, title := generateBriefingTitle upper query, query := query,
             content := content, timestamp := stamp.timestamp, date := stamp.date } ∧
    (saveBriefingToHistory upper stamp query content store).1.briefingHistory.tail =
      store.briefingHistory.take 49 ∧
    (saveBriefingToHistory upper stamp query content store).1.briefingHistory.length ≤
      MAX_HISTORY_ITEMS ∧
    (saveBriefingToHistory upper stamp query content store).1.briefingHistory.length =
      min (store.briefingHistory.length + 1) 50 ∧
    (saveBriefingToHistory upper stamp query content store).1.stored =
      some (saveBriefingToHistory upper stamp query content store).1.briefingHistory ∧
    (saveBriefingToHistory upper stamp query content store).2 = stamp.id := by
  simp only [saveBriefingToHistory, MAX_HISTORY_ITEMS]
  by_cases h : (store.briefingHistory.length + 1) > 50
  · simp only [List.length_cons, h, if_true, List.take_succ_cons, List.head?_cons,
      List.tail_cons, List.length_take, and_true, true_and]
    omega
  · simp only [List.length_cons, h, if_false, List.head?_cons, List.tail_cons, and_true,
      true_and]
    refine ⟨?_, ?_, ?_⟩
    · exact (List.take_of_length_le (by omega)).symm
    · omega
    · omega

/-- C26 on a store of 60 saved briefings (ids 0 to 59): after the save the list has 50
entries, the new briefing (id 100) first, then the old ids 0 to 48. -/
theorem saveBriefingToHistory_spec_witness :
    (saveBriefingToHistory upperUnit { id := [100], timestamp := [], date := [] }
      (utf16 "tech news") (utf16 "text") sixtyBriefings).1.briefingHistory.length = 50 ∧
    (saveBriefingToHistory upperUnit { id := [100], timestamp := [], date := [] }
      (utf16 "tech news") (utf16 "text") sixtyBriefings).1.briefingHistory.tail
      = sixtyBriefings.briefingHistory.take 49 ∧
    ((saveBriefingToHistory upperUnit { id := [100], timestamp := [], date := [] }
      (utf16 "tech news") (utf16 "text") sixtyBriefings).1.briefingHistory.map
        (fun b => b.id)).take 3 = [[100], [0], [1]] ∧
    ((saveBriefingToHistory upperUnit { id := [100], timestamp := [], date := [] }
      (utf16 "tech news") (utf16 "text") sixtyBriefings).1.briefingHistory.map
        (fun b => b.id)).getLast? = some [48] :=
  ⟨((saveBriefingToHistory_spec upperUnit { id := [100], timestamp := [], date := [] }
      (utf16 "tech news") (utf16 "text") sixtyBriefings).2.2.2.1).trans (by decide),
   (saveBriefingToHistory_spec upperUnit { id := [100], timestamp := [], date := [] }
      (utf16 "tech news") (utf16 "text") sixtyBriefings).2.1,
   by decide, by decide⟩

/-! ## C30: the generated title -/

theorem capitalizeFirst_length (upper : Nat → JsString) (t : JsString) (u : Nat)
    (h : t.head? = some u) : (capitalizeFirst upper t).length = (upper u).length + t.length - 1 := by
  cases t with
  | nil => simp at h
  | cons a r =>
    simp only [List.head?_cons, Option.some.injEq] at h
    subst h
    simp [capitalizeFirst]

/-- C30, as stated, fails: for the query of 60 characters made of a sharp s and 59 times
`a` (nothing to trim, not longer than 60) the title is `SS` followed by the 59 `a`, which
has 61 characters, because the upper-case form of the sharp s is two characters long. -/
theorem title_longer_than_sixty :
    sharpSQuery.length = 60 ∧
    generateBriefingTitle upperUnit sharpSQuery = 0x53 :: 0x53 :: List.replicate 59 0x61 ∧
    (generateBriefingTitle upperUnit sharpSQuery).length = 61 := by
  refine ⟨by decide, by decide, by decide⟩

/-- C30 (amended): for every query string, `generateBriefingTitle` returns
`Untitled Briefing` for the empty query; otherwise the trimmed query, replaced by its
first 57 characters followed by `...` when it is longer than 60 characters, with its first
character upper-cased. The title has at most 60 characters whenever the upper-case form of
that first character is at most one character long, and in general at most 59 plus the
length of that upper-case form. -/
theorem generateBriefingTitle_spec (upper : Nat → JsString) (query : JsString) :
    (query = [] → generateBriefingTitle upper query = utf16 "Untitled Briefing") ∧
    (query ≠ [] → (trimUnits query).length ≤ 60 →
      generateBriefingTitle upper query = capitalizeFirst upper (trimUnits query)) ∧
    (query ≠ [] → 60 < (trimUnits query).length →
      generateBriefingTitle upper query
        = capitalizeFirst upper ((trimUnits query).take 57 ++ utf16 "...")) ∧
    (∀ u, (trimUnits query).head? = some u →
      (generateBriefingTitle upper query).length ≤ 59 + (upper u).length) ∧
    ((∀ u, (trimUnits query).head? = some u → (upper u).length ≤ 1) →
      (generateBriefingTitle upper query).length ≤ 60) := by
  have hdots : (utf16 "...").length = 3 := by decide
  have bound : ∀ u, (trimUnits query).head? = some u →
      (generateBriefingTitle upper query).length ≤ 59 + (upper u).length := by
    intro u hu
    by_cases hq : query = []
    · rw [hq] at hu
      simp [trimUnits] at hu
    · simp only [generateBriefingTitle, if_neg hq]
      by_cases hl : (trimUnits query).length > 60
      · have hh : ((trimUnits query).take 57 ++ utf16 "...").head? = some u := by
          cases ht : trimUnits query with
          | nil => rw [ht] at hu; simp at hu
          | cons a r => rw [ht] at hu; simpa using hu
        simp only [if_pos hl]
        rw [capitalizeFirst_length upper _ u hh]
        simp only [List.length_append, List.length_take, hdots]
        omega
      · simp only [if_neg hl]
        rw [capitalizeFirst_length upper _ u hu]
        omega
  refine ⟨?_, ?_, ?_, bound, ?_⟩
  · intro hq
    simp only [generateBriefingTitle, if_pos hq]
  · intro hq hl
    have : ¬ (trimUnits query).length > 60 := by omega
    simp only [generateBriefingTitle, if_neg hq, if_neg this]
  · intro hq hl
    simp only [generateBriefingTitle, if_neg hq, if_pos hl]
  · intro hup
    by_cases hq : query = []
    · simp only [generateBriefingTitle, if_pos hq]
      decide
    · cases ht : (trimUnits query).head? with
      | some u =>
        have := bound u ht
        have := hup u ht
        omega
      | none =>
        have hnil : trimUnits query = [] := by
          cases hh : trimUnits query with
          | nil => rfl
          | cons a r => rw [hh] at ht; simp at ht
        simp [generateBriefingTitle, hq, hnil, capitalizeFirst]

/-- C30 (amended) on an ASCII query with blanks around it, and on a query of 70 letters. -/
theorem generateBriefingTitle_spec_witness :
    generateBriefingTitle upperUnit (utf16 "  weather in pune ") = utf16 "Weather in pune" ∧
    (generateBriefingTitle upperUnit (utf16 "  weather in pune ")).length ≤ 60 ∧
    generateBriefingTitle upperUnit (List.replicate 70 0x61)
      = 0x41 :: List.replicate 56 0x61 ++ utf16 "..." :=
  ⟨((generateBriefingTitle_spec upperUnit (utf16 "  weather in pune ")).2.1 (by decide)
      (by decide)).trans (by decide),
   (generateBriefingTitle_spec upperUnit (utf16 "  weather in pune ")).2.2.2.2
      (fun u hu => by
        have e : u = 0x77 := by
          have h2 : (trimUnits (utf16 "  weather in pune ")).head? = some 0x77 := by decide
          rw [h2] at hu
          exact (Option.some.inj hu).symm
        rw [e]; decide),
   ((generateBriefingTitle_spec upperUnit (List.replicate 70 0x61)).2.2.1 (by decide)
      (by decide)).trans (by decide)⟩

end Synoptic
